import Mathlib

/-!
Shallow embedding of the RateIt entity-resolution, ranking, caching and
sentiment-digest core (backend/services/geminiService.js, the database data
store, backend/database/schema.sql and the AI-optimization migration).

Conventions:
* machine strings are Lean `String`; JavaScript ASCII case operations are
  modelled per character (all inputs relevant to the modelled behaviour are
  treated characterwise, matching the JS semantics on the claims' inputs);
* numeric scores (PostgreSQL `similarity`, relevance scores, averages) are `ℚ`;
* timestamps (`NOW()`, `created_at`, `expires_at`) are `Nat` seconds and every
  operation that reads the clock takes an explicit `now` argument;
* the external reasoning service (Gemini) is an explicit parameter: `none`
  models a missing client / API key, `some f` a client whose call either
  returns parsed JSON (`Except.ok`) or throws / returns no JSON
  (`Except.error`);
* SQL statements act on an explicit `DB` record; `BEGIN`/`COMMIT`/`ROLLBACK`
  is modelled by threading an intermediate state inside the creation phase and
  discarding it on error.
-/

namespace RateIt

/-! ### JavaScript string primitives -/

/-- ASCII lower-casing of one character, as `String.prototype.toLowerCase`
acts on ASCII letters. -/
def asciiLower (c : Char) : Char :=
  if 'A' ≤ c ∧ c ≤ 'Z' then Char.ofNat (c.toNat + 32) else c

/-- ASCII upper-casing of one character, as `String.prototype.toUpperCase`
acts on ASCII letters. -/
def asciiUpper (c : Char) : Char :=
  if 'a' ≤ c ∧ c ≤ 'z' then Char.ofNat (c.toNat - 32) else c

/-- `text.toLowerCase()` on the character list of a string. -/
def jsLower (s : String) : String := String.mk (s.toList.map asciiLower)

/-- `text.toUpperCase()` on the character list of a string. -/
def jsUpper (s : String) : String := String.mk (s.toList.map asciiUpper)

/-- A JavaScript `\w` word character: `[A-Za-z0-9_]`. -/
def isWordChar (c : Char) : Bool :=
  ('a' ≤ c ∧ c ≤ 'z') ∨ ('A' ≤ c ∧ c ≤ 'Z') ∨ ('0' ≤ c ∧ c ≤ '9') ∨ c = '_'

/-- A JavaScript `\s` whitespace character (the forms occurring in inputs). -/
def isSpaceChar (c : Char) : Bool :=
  c = ' ' ∨ c = '\t' ∨ c = '\n' ∨ c = '\r'

/-- `String.prototype.trim()`. -/
def jsTrim (s : String) : String :=
  String.mk (((s.toList.dropWhile (isSpaceChar ·)).reverse.dropWhile
    (isSpaceChar ·)).reverse)

/-- Accumulator pass splitting a character list on whitespace. -/
def splitWordsGo : List Char → List Char → List String
  | [], acc => if acc = [] then [] else [String.mk acc.reverse]
  | c :: rest, acc =>
    if isSpaceChar c then
      if acc = [] then splitWordsGo rest []
      else String.mk acc.reverse :: splitWordsGo rest []
    else splitWordsGo rest (c :: acc)

/-- Split a character list on whitespace, keeping the non-empty words
(`split(/\s+/)` up to the empty fragments that the callers discard). -/
def splitWords (cs : List Char) : List String := splitWordsGo cs []

/-- JavaScript truthy-or on a nullable string: `a || b` where `null`,
`undefined` and `""` are falsy. -/
def jsOr (a : Option String) (b : String) : String :=
  match a with
  | some s => if s = "" then b else s
  | none => b

/-- JavaScript truthy-or where the default is itself nullable:
`a || b` producing a nullable value. -/
def jsOrOpt (a b : Option String) : Option String :=
  match a with
  | some s => if s = "" then b else some s
  | none => b

/-- Truthiness of a nullable string (`if (x)`). -/
def jsTruthy (a : Option String) : Bool :=
  match a with
  | some s => s ≠ ""
  | none => false

/-! ### geminiService.js : `basicNormalize` -/

/-- The extended stop-word list of `basicNormalize`. -/
def stopWords : List String :=
  ["university", "college", "institute", "school", "academy",
   "of", "the", "in", "at", "for", "and",
   "international", "national", "state", "federal", "public", "private",
   "higher", "education", "learning", "studies"]

/-- `basicNormalize(text)`: lowercase, strip the characters outside
`[\w\s-]`, turn hyphens into spaces, delete stop words at word boundaries,
collapse whitespace and trim.  After the character strip the string contains
only word characters and whitespace, so the boundary-delimited stop-word
removal is word-wise removal. -/
def basicNormalize (text : String) : String :=
  if text = "" then ""
  else
    let lowered := (text.toList.map asciiLower)
    let kept := lowered.filter (fun c => isWordChar c ∨ isSpaceChar c ∨ c = '-')
    let dehyphened := kept.map (fun c => if c = '-' then ' ' else c)
    let words := (splitWords dehyphened).filter (fun w => ¬ stopWords.contains w)
    String.intercalate " " words

/-! ### geminiService.js : `isAmbiguousInput` -/

/-- The `KNOWN_ACRONYMS` set. -/
def knownAcronyms : List String :=
  ["aui", "mit", "uon", "wiut", "aku", "usiu", "kemu", "jkuat", "emu",
   "lsu", "ucla", "nyu", "usc", "ucb", "unc", "ut", "um", "bu", "bc"]

/-- `AMBIGUOUS_LENGTH_THRESHOLD` from the service configuration. -/
def ambiguousLengthThreshold : Nat := 5

/-- Matches `(\.[A-Z])+\.?` after the leading group has been consumed. -/
def dotGroups : List Char → Bool
  | [] => true
  | ['.'] => true
  | '.' :: c :: rest => (('A' ≤ c ∧ c ≤ 'Z') : Bool) && dotGroups rest
  | _ => false

/-- The initialism pattern `^[A-Z](\.[A-Z])+\.?$` (e.g. `"M.I.T."`). -/
def isInitialismPattern (s : String) : Bool :=
  match s.toList with
  | c :: '.' :: d :: rest =>
      (('A' ≤ c ∧ c ≤ 'Z') : Bool) && (('A' ≤ d ∧ d ≤ 'Z') : Bool) && dotGroups rest
  | _ => false

/-- `isAmbiguousInput(input)`: very short, a known acronym, short all-caps,
contains non-ASCII, or looks like a dotted initialism. -/
def isAmbiguousInput (text : String) : Bool :=
  let normalized := jsLower (jsTrim text)
  if normalized.length ≤ 2 then true
  else if knownAcronyms.contains normalized then true
  else if text = jsUpper text ∧ text.length ≤ ambiguousLengthThreshold then true
  else if text.toList.any (fun c => c.toNat > 127) then true
  else isInitialismPattern (jsTrim text)

/-! ### Data store : `hashQuery` -/

/-- Wrap an integer to two's-complement 32-bit range, as JavaScript's
bitwise operations do. -/
def toInt32 (n : ℤ) : ℤ := (n + 2 ^ 31) % 2 ^ 32 - 2 ^ 31

/-- One step of the rolling hash: `hash = ((hash << 5) - hash) + char`
followed by `hash = hash & hash` (a 32-bit truncation). -/
def hashStep (h : ℤ) (c : Nat) : ℤ := toInt32 (toInt32 (h * 32) - h + c)

/-- `hashQuery(text)`: fold the 32-bit rolling hash over the lowercased
trimmed text and print `Math.abs(hash)` in lowercase hexadecimal. -/
def hashQuery (text : String) : String :=
  let str := jsTrim (jsLower text)
  let h := str.toList.foldl (fun h c => hashStep h c.toNat) 0
  String.mk (Nat.toDigits 16 h.natAbs)

/-! ### Data model (schema.sql and the AI-optimization migration) -/

structure University where
  id : Nat
  name : String
  normalizedName : String
  description : String
  nicheDetails : Option String
  locationId : Option Nat
  imageUrl : String
  deriving Repr, DecidableEq

structure UniversityAlias where
  universityId : Nat
  aliasName : String
  normalizedAlias : String
  deriving Repr, DecidableEq

structure Country where
  id : Nat
  name : String
  deriving Repr, DecidableEq

structure Location where
  id : Nat
  name : String
  countryId : Nat
  deriving Repr, DecidableEq

structure Review where
  id : Nat
  universityId : Nat
  category : String
  rating : Nat
  comment : String
  moderationStatus : String
  createdAt : Nat
  deriving Repr, DecidableEq

structure SentimentSummary where
  tone : String
  positivePhrases : String
  negativePhrases : String
  lastUpdated : Nat
  deriving Repr, DecidableEq

structure UniversityStats where
  universityId : Nat
  totalReviews : Nat
  averageRating : ℚ
  sentimentSummary : Option SentimentSummary
  deriving Repr, DecidableEq

structure NormalizationCacheEntry where
  inputHash : String
  inputText : String
  normalizedName : String
  displayName : Option String
  location : Option String
  country : Option String
  expiresAt : Nat
  deriving Repr, DecidableEq

structure ChatCacheEntry where
  universityId : Nat
  queryHash : String
  queryText : String
  responseText : String
  expiresAt : Nat
  deriving Repr, DecidableEq

structure GlobalChatCacheEntry where
  queryHash : String
  region : Option String
  queryText : String
  responseText : String
  expiresAt : Nat
  deriving Repr, DecidableEq

/-- The whole store.  `nextId` supplies fresh identifiers (UUIDs in the
source). -/
structure DB where
  universities : List University
  aliases : List UniversityAlias
  countries : List Country
  locations : List Location
  reviews : List Review
  stats : List UniversityStats
  normCache : List NormalizationCacheEntry
  chatCache : List ChatCacheEntry
  globalChatCache : List GlobalChatCacheEntry
  nextId : Nat
  deriving Repr, DecidableEq

deriving instance DecidableEq for Except

/-- Request payload of `addUniversity`. -/
structure UniversityData where
  name : String
  location : Option String := none
  country : Option String := none
  description : Option String := none
  nicheDetails : Option String := none
  imageUrl : Option String := none
  deriving Repr, DecidableEq

/-- `CONFIG.SIMILARITY_THRESHOLD`. -/
def simThreshold : ℚ := 7 / 10

/-- `CONFIG.SIMILARITY_THRESHOLD_LOW`. -/
def simThresholdLow : ℚ := 2 / 5

/-- `CONFIG.MAX_CANDIDATES_GLOBAL`. -/
def maxCandidatesGlobal : Nat := 5

/-- `INTERVAL '7 days'` in seconds. -/
def sevenDays : Nat := 604800

/-- `INTERVAL '24 hours'` in seconds. -/
def oneDay : Nat := 86400

/-! ### Data store : similarity search -/

structure SimRow where
  id : Nat
  name : String
  normalizedName : String
  similarity : ℚ
  deriving Repr, DecidableEq

/-- Order on universities used by `ORDER BY sim_score DESC`. -/
def simLe (sim : String → String → ℚ) (q : String) (a b : University) : Prop :=
  sim b.normalizedName q ≤ sim a.normalizedName q

instance (sim : String → String → ℚ) (q : String) : DecidableRel (simLe sim q) :=
  fun a b => inferInstanceAs (Decidable (sim b.normalizedName q ≤ sim a.normalizedName q))

instance (sim : String → String → ℚ) (q : String) : IsTotal University (simLe sim q) :=
  ⟨fun _ _ => le_total _ _⟩

instance (sim : String → String → ℚ) (q : String) : IsTrans University (simLe sim q) :=
  ⟨fun _ _ _ h₁ h₂ => le_trans h₂ h₁⟩

/-- `findSimilarWithConfidence(normalizedName, threshold)`: universities whose
`similarity(normalized_name, $1)` strictly exceeds the threshold, ordered by
score descending, capped at 5.  The PostgreSQL `similarity` function is the
parameter `sim`. -/
def findSimilarWithConfidence (sim : String → String → ℚ) (db : DB)
    (normalizedName : String) (threshold : ℚ) : List SimRow :=
  ((List.insertionSort (simLe sim normalizedName)
      (db.universities.filter
        (fun u => threshold < sim u.normalizedName normalizedName))).take 5).map
    (fun u => ⟨u.id, u.name, u.normalizedName, sim u.normalizedName normalizedName⟩)

/-! ### Data store : AI-normalization cache -/

/-- Resolution result of name normalization. -/
structure NormResult where
  normalizedName : String
  name : String
  location : Option String
  country : Option String
  description : Option String
  usedAI : Bool
  deriving Repr, DecidableEq

/-- `getAINormalizationCache(inputHash)`: the entry for the hash, provided its
expiry has not passed (`expires_at > NOW()`). -/
def getAINormalizationCache (now : Nat) (db : DB) (inputHash : String) :
    Option NormalizationCacheEntry :=
  db.normCache.find? (fun e => e.inputHash = inputHash ∧ now < e.expiresAt)

/-- `setAINormalizationCache`: upsert keyed by `input_hash`; the conflict
branch rewrites only `normalized_name`, `display_name` and `expires_at`, and
both branches leave the entry expiring 7 days from now. -/
def setAINormalizationCache (now : Nat) (db : DB) (inputHash inputText : String)
    (normalized : NormResult) : DB :=
  if db.normCache.any (fun e => e.inputHash = inputHash) then
    { db with normCache := db.normCache.map (fun e =>
        if e.inputHash = inputHash then
          { e with normalizedName := normalized.normalizedName,
                   displayName := some normalized.name,
                   expiresAt := now + sevenDays }
        else e) }
  else
    { db with normCache := db.normCache ++
        [⟨inputHash, inputText, normalized.normalizedName, some normalized.name,
          normalized.location, normalized.country, now + sevenDays⟩] }

/-! ### geminiService.js : `normalizeUniversityInput` -/

/-- The JSON object parsed out of the model's reply; each field may be absent
(JavaScript falsy handling applies). -/
structure ParsedAI where
  normalizedName : Option String
  name : Option String
  location : Option String
  country : Option String
  description : Option String
  deriving Repr, DecidableEq

/-- The external reasoning client: `none` when no API key is configured,
`some f` otherwise; `f` returns `Except.error` when the call throws or the
reply holds no JSON. -/
abbrev AIClient := UniversityData → Except String ParsedAI

/-- The deterministic result every fallback branch of
`normalizeUniversityInput` returns (`usedAI = false`). -/
def fallbackNormalization (userInput : UniversityData) : NormResult :=
  ⟨basicNormalize userInput.name, userInput.name, userInput.location,
   userInput.country, userInput.description, false⟩

/-- `normalizeUniversityInput(userInput, skipAI)`: deterministic result when
skipped, unambiguous, the client is missing, or the call fails; otherwise the
parsed model reply with per-field falsy fallbacks, marked `usedAI = true`. -/
def normalizeUniversityInput (ai : Option AIClient) (userInput : UniversityData)
    (skipAI : Bool) : NormResult :=
  let inputName := userInput.name
  let deterministicNorm := basicNormalize inputName
  if skipAI || !(isAmbiguousInput inputName) then fallbackNormalization userInput
  else
    match ai with
    | none => fallbackNormalization userInput
    | some callModel =>
      match callModel userInput with
      | Except.error _ => fallbackNormalization userInput
      | Except.ok parsed =>
        ⟨jsOr parsed.normalizedName deterministicNorm,
         jsOr parsed.name inputName,
         jsOrOpt parsed.location userInput.location,
         jsOrOpt parsed.country userInput.country,
         jsOrOpt parsed.description userInput.description,
         true⟩

/-! ### Data store : aliases and creation transaction -/

/-- `addAlias`: the aliases table has no unique constraint beside its UUID
primary key, so the `ON CONFLICT DO NOTHING` insert always appends. -/
def addAlias (db : DB) (universityId : Nat) (aliasName normalizedAlias : String) : DB :=
  { db with aliases := db.aliases ++ [⟨universityId, aliasName, normalizedAlias⟩] }

/-- The statements of the creation transaction that can fail. -/
inductive TxStep
  | country
  | location
  | university
  | stats
  deriving Repr, DecidableEq

/-- Failure injection saying every statement succeeds. -/
def noFail : TxStep → Bool := fun _ => false

/-- Result shape of `addUniversity`. -/
structure AddResult where
  id : Nat
  name : String
  normalizedName : String
  isExisting : Bool
  deriving Repr, DecidableEq

/-- `{...top, isExisting: true}` for a similarity match. -/
def matchResult (top : SimRow) : AddResult := ⟨top.id, top.name, top.normalizedName, true⟩

/-- `INSERT INTO countries ... ON CONFLICT (name) DO UPDATE ... RETURNING id`. -/
def getOrCreateCountry (db : DB) (cname : String) : DB × Nat :=
  match db.countries.find? (fun c => c.name = cname) with
  | some c => (db, c.id)
  | none =>
    ({ db with
       countries := db.countries ++ [⟨db.nextId, cname⟩],
       nextId := db.nextId + 1 }, db.nextId)

/-- `INSERT INTO locations ... ON CONFLICT (name, country_id) DO UPDATE ...
RETURNING id`. -/
def getOrCreateLocation (db : DB) (lname : String) (countryId : Nat) : DB × Nat :=
  match db.locations.find? (fun l => l.name = lname ∧ l.countryId = countryId) with
  | some l => (db, l.id)
  | none =>
    ({ db with
       locations := db.locations ++ [⟨db.nextId, lname, countryId⟩],
       nextId := db.nextId + 1 }, db.nextId)

/-- Default `image_url` used on insert. -/
def defaultImageUrl : String :=
  "https://images.unsplash.com/photo-1562774053-701939374585?w=800&h=400&fit=crop"

/-- The conditional country insert of the creation transaction:
`if (normalized.country || data.country) { INSERT ... RETURNING id }`. -/
def txCountryStep (txFail : TxStep → Bool) (db : DB) (normalized : NormResult)
    (data : UniversityData) : Except String (DB × Option Nat) :=
  if jsTruthy (jsOrOpt normalized.country data.country) then
    if txFail .country then .error "country insert failed"
    else
      let r := getOrCreateCountry db ((jsOrOpt normalized.country data.country).getD "")
      .ok (r.1, some r.2)
  else .ok (db, none)

/-- The conditional location insert of the creation transaction:
`if ((normalized.location || data.location) && countryId) { INSERT ... }`. -/
def txLocationStep (txFail : TxStep → Bool) (db1 : DB) (countryId : Option Nat)
    (normalized : NormResult) (data : UniversityData) : Except String (DB × Option Nat) :=
  if jsTruthy (jsOrOpt normalized.location data.location) ∧ countryId.isSome then
    if txFail .location then .error "location insert failed"
    else
      let r := getOrCreateLocation db1 ((jsOrOpt normalized.location data.location).getD "")
                (countryId.getD 0)
      .ok (r.1, some r.2)
  else .ok (db1, none)

/-- The university insert and stats initialization of the creation
transaction. -/
def txInsertUniversity (txFail : TxStep → Bool) (rollbackTo db2 : DB)
    (locationId : Option Nat) (normalized : NormResult) (data : UniversityData) :
    DB × Except String AddResult :=
  if txFail .university then (rollbackTo, .error "university insert failed")
  else
    let uid := db2.nextId
    let newU : University :=
      ⟨uid, normalized.name, normalized.normalizedName,
       jsOr (jsOrOpt normalized.description data.description) "",
       data.nicheDetails, locationId, jsOr data.imageUrl defaultImageUrl⟩
    let db3 := { db2 with universities := db2.universities ++ [newU], nextId := uid + 1 }
    if txFail .stats then (rollbackTo, .error "stats insert failed")
    else
      let db4 :=
        if db3.stats.any (fun s => s.universityId = uid) then db3
        else { db3 with stats := db3.stats ++ [⟨uid, 0, 0, none⟩] }
      (db4, .ok ⟨uid, normalized.name, normalized.normalizedName, false⟩)

/-- The creation phase of `addUniversity`: `BEGIN`; optional country insert,
optional location insert, university insert, stats initialization; `COMMIT`.
Any failing statement triggers `ROLLBACK` (the pre-transaction store is
returned) and the error is rethrown. -/
def createUniversityTx (txFail : TxStep → Bool) (db : DB) (normalized : NormResult)
    (data : UniversityData) : DB × Except String AddResult :=
  match txCountryStep txFail db normalized data with
  | .error e => (db, .error e)
  | .ok (db1, countryId) =>
    match txLocationStep txFail db1 countryId normalized data with
    | .error e => (db, .error e)
    | .ok (db2, locationId) =>
      txInsertUniversity txFail db db2 locationId normalized data

/-! ### Data store : `addUniversity` resolution engine -/

/-- Phase 2b of `addUniversity`: second similarity lookup after AI resolution,
aliasing both spellings on a hit, creating otherwise. -/
def addUniversityPostAI (sim : String → String → ℚ) (txFail : TxStep → Bool) (db : DB)
    (inputName deterministicNorm : String) (normalized : NormResult)
    (data : UniversityData) : DB × Except String AddResult :=
  match findSimilarWithConfidence sim db normalized.normalizedName simThresholdLow with
  | [] => createUniversityTx txFail db normalized data
  | top :: _ =>
    let db1 := addAlias db top.id inputName deterministicNorm
    let db2 :=
      if normalized.normalizedName ≠ deterministicNorm then
        addAlias db1 top.id normalized.name normalized.normalizedName
      else db1
    (db2, .ok (matchResult top))

/-- Phase 2 of `addUniversity` for ambiguous inputs: consult the normalization
cache, otherwise call `normalizeUniversityInput` and cache AI-derived results,
then re-match. -/
def addUniversityAmbiguous (sim : String → String → ℚ) (ai : Option AIClient)
    (txFail : TxStep → Bool) (now : Nat) (db : DB)
    (inputName deterministicNorm : String) (data : UniversityData) :
    DB × Except String AddResult :=
  let inputHash := hashQuery (jsTrim (jsLower inputName))
  match getAINormalizationCache now db inputHash with
  | some cached =>
    let normalized : NormResult :=
      ⟨cached.normalizedName, jsOr cached.displayName inputName,
       jsOrOpt cached.location data.location, jsOrOpt cached.country data.country,
       data.description, true⟩
    addUniversityPostAI sim txFail db inputName deterministicNorm normalized data
  | none =>
    let normalized := normalizeUniversityInput ai data false
    let db1 :=
      if normalized.usedAI then
        setAINormalizationCache now db inputHash inputName normalized
      else db
    addUniversityPostAI sim txFail db1 inputName deterministicNorm normalized data

/-- Phase 2 of `addUniversity` for unambiguous inputs: a low-confidence pass,
aliasing on a hit, creating from the deterministic normalization otherwise. -/
def addUniversityNonAmbiguous (sim : String → String → ℚ) (txFail : TxStep → Bool)
    (db : DB) (inputName deterministicNorm : String) (data : UniversityData) :
    DB × Except String AddResult :=
  let normalized : NormResult :=
    ⟨deterministicNorm, inputName, data.location, data.country, data.description, false⟩
  match findSimilarWithConfidence sim db deterministicNorm simThresholdLow with
  | top :: _ => (addAlias db top.id inputName deterministicNorm, .ok (matchResult top))
  | [] => createUniversityTx txFail db normalized data

/-- `addUniversity(data)`: phase 1 deterministic high-confidence matching,
then the ambiguity-gated phase 2, then creation. -/
def addUniversity (sim : String → String → ℚ) (ai : Option AIClient)
    (txFail : TxStep → Bool) (now : Nat) (db : DB) (data : UniversityData) :
    DB × Except String AddResult :=
  let inputName := data.name
  let deterministicNorm := basicNormalize inputName
  let phase2 :=
    if isAmbiguousInput inputName then
      addUniversityAmbiguous sim ai txFail now db inputName deterministicNorm data
    else
      addUniversityNonAmbiguous sim txFail db inputName deterministicNorm data
  match findSimilarWithConfidence sim db deterministicNorm simThreshold with
  | top :: _ =>
    if simThreshold ≤ top.similarity then
      (addAlias db top.id inputName deterministicNorm, .ok (matchResult top))
    else phase2
  | [] => phase2

/-! ### Data store : response caches -/

/-- `getCachedResponse(universityId, queryHash)` with lazy expiry. -/
def getCachedResponse (now : Nat) (db : DB) (universityId : Nat) (queryHash : String) :
    Option String :=
  (db.chatCache.find? (fun e =>
    e.universityId = universityId ∧ e.queryHash = queryHash ∧ now < e.expiresAt)).map
    (·.responseText)

/-- `getCachedGlobalResponse(queryHash, region)` with lazy expiry and
null-safe region comparison. -/
def getCachedGlobalResponse (now : Nat) (db : DB) (queryHash : String)
    (region : Option String) : Option String :=
  (db.globalChatCache.find? (fun e =>
    e.queryHash = queryHash ∧ e.region = region ∧ now < e.expiresAt)).map
    (·.responseText)

/-- Physical deletion of expired cache rows (the optional periodic sweep). -/
def purgeExpired (now : Nat) (db : DB) : DB :=
  { db with
    normCache := db.normCache.filter (fun e => now < e.expiresAt),
    chatCache := db.chatCache.filter (fun e => now < e.expiresAt),
    globalChatCache := db.globalChatCache.filter (fun e => now < e.expiresAt) }

/-! ### Data store : `preRankUniversities` -/

structure RankedRow where
  id : Nat
  name : String
  normalizedName : String
  description : String
  location : Option String
  country : Option String
  reviewCount : Nat
  avgRating : ℚ
  relevanceScore : ℚ
  deriving Repr, DecidableEq

/-- `LEFT JOIN locations` name for a university. -/
def locationNameOf (db : DB) (u : University) : Option String :=
  u.locationId.bind (fun lid => (db.locations.find? (fun l => l.id = lid)).map (·.name))

/-- `LEFT JOIN locations LEFT JOIN countries` country name for a
university. -/
def countryNameOf (db : DB) (u : University) : Option String :=
  u.locationId.bind (fun lid =>
    (db.locations.find? (fun l => l.id = lid)).bind (fun l =>
      (db.countries.find? (fun c => c.id = l.countryId)).map (·.name)))

/-- `LEFT JOIN university_stats` row for a university. -/
def statsOf (db : DB) (u : University) : Option UniversityStats :=
  db.stats.find? (fun s => s.universityId = u.id)

/-- Case-sensitive substring test; `v ILIKE '%k%'` is
`strContains (jsLower v) (jsLower k)`. -/
def strContains (hay needle : String) : Bool :=
  hay.toList.tails.any (fun t => needle.toList.isPrefixOf t)

/-- Keyword extraction of `preRankUniversities`: lowercase, strip the
characters outside `[\w\s]`, split on whitespace, keep tokens longer than
2 characters. -/
def queryKeywords (queryText : String) : List String :=
  (splitWords ((jsLower queryText).toList.filter
    (fun c => isWordChar c ∨ isSpaceChar c))).filter (fun w => w.length > 2)

/-- `u.name ILIKE ANY(patterns) OR u.description ILIKE ANY(patterns)` where
the patterns are `%kw%`; an empty keyword list degenerates to the match-all
pattern `'%%'`. -/
def keywordCondition (keywords : List String) (u : University) : Bool :=
  match keywords with
  | [] => true
  | ks => ks.any (fun k =>
      strContains (jsLower u.name) (jsLower k) ∨
      strContains (jsLower u.description) (jsLower k))

/-- The `relevance_score` expression of `preRankUniversities`. -/
def relevanceScore (db : DB) (region : Option String) (keywords : List String)
    (u : University) : ℚ :=
  let st := statsOf db u
  let avg : ℚ := match st with | some s => s.averageRating | none => 0
  let total : ℚ := match st with | some s => (s.totalReviews : ℚ) | none => 0
  avg * (2 / 5) + min (total / 10) 2 * (3 / 10) +
    (match region with
     | some r =>
        if (match countryNameOf db u with
            | some cn => strContains (jsLower cn) (jsLower r)
            | none => false) then (3 : ℚ) / 2 else 0
     | none => 0) +
    (if keywordCondition keywords u then 1 else 0)

/-- `ORDER BY relevance_score DESC, s.average_rating DESC`. -/
def rankOrder (a b : RankedRow) : Prop :=
  b.relevanceScore < a.relevanceScore ∨
    (a.relevanceScore = b.relevanceScore ∧ b.avgRating ≤ a.avgRating)

instance : DecidableRel rankOrder := fun a b =>
  inferInstanceAs (Decidable (b.relevanceScore < a.relevanceScore ∨
    (a.relevanceScore = b.relevanceScore ∧ b.avgRating ≤ a.avgRating)))

instance : IsTotal RankedRow rankOrder := by
  constructor
  intro a b
  rcases lt_trichotomy a.relevanceScore b.relevanceScore with h | h | h
  · exact Or.inr (Or.inl h)
  · rcases le_total a.avgRating b.avgRating with h' | h'
    · exact Or.inr (Or.inr ⟨h.symm, h'⟩)
    · exact Or.inl (Or.inr ⟨h, h'⟩)
  · exact Or.inl (Or.inl h)

instance : IsTrans RankedRow rankOrder := by
  constructor
  intro a b c hab hbc
  rcases hab with h₁ | ⟨e₁, a₁⟩
  · rcases hbc with h₂ | ⟨e₂, _⟩
    · exact Or.inl (h₂.trans h₁)
    · exact Or.inl (e₂ ▸ h₁)
  · rcases hbc with h₂ | ⟨e₂, a₂⟩
    · exact Or.inl (e₁ ▸ h₂)
    · exact Or.inr ⟨e₁.trans e₂, a₂.trans a₁⟩

/-- `preRankUniversities(queryText, region)`: universities with at least one
review, scored, ordered by score then average rating, capped at
`MAX_CANDIDATES_GLOBAL`. -/
def preRankUniversities (db : DB) (queryText : String) (region : Option String) :
    List RankedRow :=
  let keywords := queryKeywords queryText
  let qualifying := db.universities.filter
    (fun u => 0 < (((statsOf db u).map (·.totalReviews)).getD 0))
  let rows := qualifying.map (fun u =>
    ⟨u.id, u.name, u.normalizedName, u.description, locationNameOf db u,
     countryNameOf db u,
     ((statsOf db u).map (·.totalReviews)).getD 0,
     (match statsOf db u with | some s => s.averageRating | none => 0),
     relevanceScore db region keywords u⟩)
  (List.insertionSort rankOrder rows).take maxCandidatesGlobal

/-! ### schema.sql / migration : review triggers -/

/-- The approved feedback items of one university. -/
def approvedReviewsFor (db : DB) (uid : Nat) : List Review :=
  db.reviews.filter (fun r => r.universityId = uid ∧ r.moderationStatus = "approved")

/-- SQL `LEFT(comment, 80)`. -/
def leftChars (s : String) (n : Nat) : String := String.mk (s.toList.take n)

/-- `ORDER BY rating DESC, created_at DESC` for the positive sample. -/
def posSampleOrder (a b : Review) : Prop :=
  b.rating < a.rating ∨ (a.rating = b.rating ∧ b.createdAt ≤ a.createdAt)

instance : DecidableRel posSampleOrder := fun a b =>
  inferInstanceAs (Decidable (b.rating < a.rating ∨
    (a.rating = b.rating ∧ b.createdAt ≤ a.createdAt)))

/-- `ORDER BY rating ASC, created_at DESC` for the negative sample. -/
def negSampleOrder (a b : Review) : Prop :=
  a.rating < b.rating ∨ (a.rating = b.rating ∧ b.createdAt ≤ a.createdAt)

instance : DecidableRel negSampleOrder := fun a b =>
  inferInstanceAs (Decidable (a.rating < b.rating ∨
    (a.rating = b.rating ∧ b.createdAt ≤ a.createdAt)))

/-- Up to 3 approved reviews with rating ≥ 4, newest/highest first, each
truncated to 80 characters and joined by `' | '`; `NULL` when none. -/
def positiveSample (db : DB) (uid : Nat) : Option String :=
  let rs := (List.insertionSort posSampleOrder
    ((approvedReviewsFor db uid).filter (fun r => 4 ≤ r.rating))).take 3
  if rs = [] then none
  else some (String.intercalate " | " (rs.map (fun r => leftChars r.comment 80)))

/-- Up to 3 approved reviews with rating ≤ 2, worst/newest first, truncated
and joined; `NULL` when none. -/
def negativeSample (db : DB) (uid : Nat) : Option String :=
  let rs := (List.insertionSort negSampleOrder
    ((approvedReviewsFor db uid).filter (fun r => r.rating ≤ 2))).take 3
  if rs = [] then none
  else some (String.intercalate " | " (rs.map (fun r => leftChars r.comment 80)))

/-- The `CASE` tone expression over the (possibly `NULL`) stored average. -/
def sentimentTone (avg : Option ℚ) : String :=
  match avg with
  | some a => if 4 ≤ a then "positive" else if 3 ≤ a then "mixed" else "critical"
  | none => "critical"

/-- `update_sentiment_summary(uni_id)`: build the digest from the stats row's
stored `average_rating` and the current approved reviews, then write it onto
the stats row. -/
def updateSentimentSummary (now : Nat) (db : DB) (uniId : Nat) : DB :=
  let avgRating := (db.stats.find? (fun s => s.universityId = uniId)).map (·.averageRating)
  let summary : SentimentSummary :=
    ⟨sentimentTone avgRating,
     (positiveSample db uniId).getD "No positive reviews yet",
     (negativeSample db uniId).getD "No negative reviews yet",
     now⟩
  { db with stats := db.stats.map (fun s =>
      if s.universityId = uniId then { s with sentimentSummary := some summary } else s) }

/-- `ROUND(x::numeric, 1)` for the non-negative averages that occur. -/
def roundTo1 (q : ℚ) : ℚ := (round (q * 10) : ℤ) / 10

/-- `update_university_stats(uni_id)`: recount and re-average the approved
reviews, upserting the stats row; the conflict branch leaves
`sentiment_summary` untouched. -/
def updateUniversityStats (db : DB) (uniId : Nat) : DB :=
  let rs := approvedReviewsFor db uniId
  let total := rs.length
  let avg : ℚ :=
    if rs = [] then 0 else roundTo1 ((rs.map (fun r => (r.rating : ℚ))).sum / total)
  if db.stats.any (fun s => s.universityId = uniId) then
    { db with stats := db.stats.map (fun s =>
        if s.universityId = uniId then
          { s with totalReviews := total, averageRating := avg }
        else s) }
  else
    { db with stats := db.stats ++ [⟨uniId, total, avg, none⟩] }

/-- `INSERT INTO reviews` followed by its `AFTER INSERT` row triggers; with
more than one trigger on the same event PostgreSQL fires them in alphabetical
order by name, so `trg_review_sentiment` runs before `trg_review_stats`. -/
def insertReview (now : Nat) (db : DB) (r : Review) : DB :=
  let db1 := { db with reviews := db.reviews ++ [r] }
  let db2 := updateSentimentSummary now db1 r.universityId
  updateUniversityStats db2 r.universityId

/-- `DELETE FROM reviews WHERE id = $1` followed by its `AFTER DELETE` row
triggers, again `trg_review_sentiment` (alphabetically first) before
`trg_review_stats`. -/
def deleteReview (now : Nat) (db : DB) (reviewId : Nat) : DB :=
  match db.reviews.find? (fun r => r.id = reviewId) with
  | none => db
  | some r =>
    let db1 := { db with reviews := db.reviews.filter (fun x => ¬ x.id = reviewId) }
    let db2 := updateSentimentSummary now db1 r.universityId
    updateUniversityStats db2 r.universityId

/-- The empty store. -/
def DB.empty : DB := ⟨[], [], [], [], [], [], [], [], [], 0⟩

/-! ### Spec-side comparison definitions (for refinement claims) -/

/-- Per the spec's words: the best similarity score of an entity, searching
both `Entity.normalizedName` and its aliases' `normalizedAliasText`. -/
def bestScoreSpec (sim : String → String → ℚ) (db : DB) (q : String)
    (u : University) : ℚ :=
  ((db.aliases.filter (fun a => a.universityId = u.id)).map
    (fun a => sim a.normalizedAlias q)).foldl max (sim u.normalizedName q)

/-- Order on universities by best spec-side score, descending. -/
def simLeSpec (sim : String → String → ℚ) (db : DB) (q : String)
    (a b : University) : Prop :=
  bestScoreSpec sim db q b ≤ bestScoreSpec sim db q a

instance (sim : String → String → ℚ) (db : DB) (q : String) :
    DecidableRel (simLeSpec sim db q) :=
  fun a b =>
    inferInstanceAs (Decidable (bestScoreSpec sim db q b ≤ bestScoreSpec sim db q a))

/-- Per the spec's words: the candidate search must consider both
`Entity.normalizedName` and `Alias.normalizedAliasText`, return the best score
per entity, keep scores strictly above the threshold, order descending and cap
at 5. -/
def findCandidatesSpec (sim : String → String → ℚ) (db : DB) (q : String)
    (t : ℚ) : List SimRow :=
  ((List.insertionSort (simLeSpec sim db q)
      (db.universities.filter (fun u => t < bestScoreSpec sim db q u))).take 5).map
    (fun u => ⟨u.id, u.name, u.normalizedName, bestScoreSpec sim db q u⟩)

/-- Per the claim's words: the keyword bonus is 1.0 exactly when some
extracted token of the query appears in the entity's name or description,
and 0 otherwise (no degenerate match-all case). -/
def claimedKeywordBonus (keywords : List String) (u : University) : ℚ :=
  if keywords.any (fun k =>
      strContains (jsLower u.name) (jsLower k) ∨
      strContains (jsLower u.description) (jsLower k)) then 1 else 0

/-- Per the claim's words: the ranking score
`0.4·averageRating + 0.3·min(totalCount/10, 2) + regionBonus + keywordBonus`
with the keyword bonus as claimed. -/
def claimedScore (db : DB) (region : Option String) (queryText : String)
    (u : University) : ℚ :=
  let st := statsOf db u
  let avg : ℚ := match st with | some s => s.averageRating | none => 0
  let total : ℚ := match st with | some s => (s.totalReviews : ℚ) | none => 0
  avg * (2 / 5) + min (total / 10) 2 * (3 / 10) +
    (match region with
     | some r =>
        if (match countryNameOf db u with
            | some cn => strContains (jsLower cn) (jsLower r)
            | none => false) then (3 : ℚ) / 2 else 0
     | none => 0) +
    claimedKeywordBonus (queryKeywords queryText) u

/-! ### Concrete fixtures used by counterexamples and witnesses -/

/-- A similarity function scoring every pair at 0. -/
def simZero : String → String → ℚ := fun _ _ => 0

/-- A similarity function scoring every pair at 1. -/
def simOne : String → String → ℚ := fun _ _ => 1

/-- Exact string equality as a similarity measure. -/
def simEq : String → String → ℚ := fun a b => if a = b then 1 else 0

/-- A similarity function whose only nonzero off-diagonal value is the
boundary score 0.70 between `"alpha"` and `"mit"`. -/
def simBoundary : String → String → ℚ :=
  fun a b => if a = "alpha" ∧ b = "mit" then 7 / 10 else if a = b then 1 else 0

/-- An external client that always answers with a fixed parsed JSON. -/
def aiZeta : AIClient :=
  fun _ => .ok ⟨some "zzz", some "Zeta City University", none, none, none⟩

/-- An external client that always throws. -/
def aiErr : AIClient := fun _ => .error "model call failed"

/-- Failure injection making exactly the university insert fail. -/
def failUniversityInsert : TxStep → Bool := fun s => s = TxStep.university

def uniAlpha : University := ⟨0, "Alpha", "alpha", "", none, none, defaultImageUrl⟩

def dbAlpha : DB := { DB.empty with universities := [uniAlpha], nextId := 1 }

def dataMIT : UniversityData := { name := "MIT" }

def dataQuery : UniversityData := { name := "query" }

def uniZeta : University := ⟨0, "Zeta", "zzz", "", none, none, defaultImageUrl⟩

def dbZeta : DB :=
  { DB.empty with universities := [uniZeta], aliases := [⟨0, "Q", "q"⟩], nextId := 1 }

def uniXavier : University := ⟨0, "Xavier", "xavier", "", none, none, defaultImageUrl⟩

def dbXavier : DB :=
  { DB.empty with universities := [uniXavier], stats := [⟨0, 1, 3, none⟩], nextId := 1 }

/-- An expired entry in every cache (all expiries at time 5). -/
def dbExpired : DB :=
  { DB.empty with
    chatCache := [⟨0, "h", "q", "resp", 5⟩],
    globalChatCache := [⟨"h", none, "q", "resp", 5⟩],
    normCache := [⟨"h", "t", "n", none, none, none, 5⟩] }

def uniDigest : University := ⟨0, "U", "u", "", none, none, defaultImageUrl⟩

/-- An entity with a freshly initialized stats row. -/
def digestDB : DB :=
  { DB.empty with universities := [uniDigest], stats := [⟨0, 0, 0, none⟩], nextId := 1 }

/-- The store after the moderated-submission path inserts one rating-5 and
one rating-1 approved feedback item (each insert firing both triggers). -/
def digestDB2 : DB :=
  insertReview 1
    (insertReview 0 digestDB ⟨10, 0, "Academics", 5, "Great professors", "approved", 0⟩)
    ⟨11, 0, "Food & Dining", 1, "Awful cafeteria", "approved", 1⟩

/-- The store after deleting the only rating-5 item (firing both triggers). -/
def digestDB3 : DB := deleteReview 2 digestDB2 10

/-- The store reached by the first witness resolution of `"query"` on an
empty store. -/
def dbAfterQuery : DB :=
  { DB.empty with
    universities := [⟨0, "query", "query", "", none, none, defaultImageUrl⟩],
    stats := [⟨0, 0, 0, none⟩],
    nextId := 1 }

/-! ### Helper lemmas on the store operations -/

@[simp]
theorem addAlias_universities (db : DB) (i : Nat) (a n : String) :
    (addAlias db i a n).universities = db.universities := rfl

@[simp]
theorem addAlias_normCache (db : DB) (i : Nat) (a n : String) :
    (addAlias db i a n).normCache = db.normCache := rfl

@[simp]
theorem addAlias_stats (db : DB) (i : Nat) (a n : String) :
    (addAlias db i a n).stats = db.stats := rfl

@[simp]
theorem addAlias_countries (db : DB) (i : Nat) (a n : String) :
    (addAlias db i a n).countries = db.countries := rfl

@[simp]
theorem addAlias_locations (db : DB) (i : Nat) (a n : String) :
    (addAlias db i a n).locations = db.locations := rfl

@[simp]
theorem setNormCache_universities (now : Nat) (db : DB) (h t : String) (n : NormResult) :
    (setAINormalizationCache now db h t n).universities = db.universities := by
  unfold setAINormalizationCache; split <;> rfl

@[simp]
theorem setNormCache_stats (now : Nat) (db : DB) (h t : String) (n : NormResult) :
    (setAINormalizationCache now db h t n).stats = db.stats := by
  unfold setAINormalizationCache; split <;> rfl

@[simp]
theorem setNormCache_countries (now : Nat) (db : DB) (h t : String) (n : NormResult) :
    (setAINormalizationCache now db h t n).countries = db.countries := by
  unfold setAINormalizationCache; split <;> rfl

@[simp]
theorem setNormCache_locations (now : Nat) (db : DB) (h t : String) (n : NormResult) :
    (setAINormalizationCache now db h t n).locations = db.locations := by
  unfold setAINormalizationCache; split <;> rfl

/-- `findSimilarWithConfidence` reads only the universities table. -/
theorem findSimilar_congr (sim : String → String → ℚ) {db₁ db₂ : DB} (q : String) (t : ℚ)
    (h : db₁.universities = db₂.universities) :
    findSimilarWithConfidence sim db₁ q t = findSimilarWithConfidence sim db₂ q t := by
  unfold findSimilarWithConfidence; rw [h]

/-- Characterization of the members of a similarity search result. -/
theorem findSimilar_mem {sim : String → String → ℚ} {db : DB} {q : String} {t : ℚ}
    {r : SimRow} (hr : r ∈ findSimilarWithConfidence sim db q t) :
    t < r.similarity ∧ ∃ u ∈ db.universities,
      r = ⟨u.id, u.name, u.normalizedName, sim u.normalizedName q⟩ := by
  unfold findSimilarWithConfidence at hr
  rw [List.mem_map] at hr
  obtain ⟨u, hu, rfl⟩ := hr
  have hu₁ : u ∈ List.insertionSort (simLe sim q)
      (db.universities.filter (fun u => t < sim u.normalizedName q)) :=
    List.mem_of_mem_take hu
  have hu₂ := (List.perm_insertionSort (simLe sim q) _).mem_iff.mp hu₁
  have hu₃ := List.mem_filter.mp hu₂
  refine ⟨?_, u, hu₃.1, rfl⟩
  simpa [decide_eq_true_eq] using hu₃.2

/-- A similarity search is empty exactly when no university clears the
threshold. -/
theorem findSimilar_eq_nil_iff {sim : String → String → ℚ} {db : DB} {q : String} {t : ℚ} :
    findSimilarWithConfidence sim db q t = [] ↔
      ∀ u ∈ db.universities, sim u.normalizedName q ≤ t := by
  unfold findSimilarWithConfidence
  rw [List.map_eq_nil_iff, List.take_eq_nil_iff]
  constructor
  · rintro (h5 | hs)
    · exact absurd h5 (by norm_num)
    · intro u hu
      have hperm := List.perm_insertionSort (simLe sim q)
        (db.universities.filter (fun u => t < sim u.normalizedName q))
      have hnil : db.universities.filter (fun u => t < sim u.normalizedName q) = [] :=
        ((hs ▸ hperm) : ([] : List University).Perm _).nil_eq.symm
      have := List.filter_eq_nil_iff.mp hnil u hu
      simpa [decide_eq_true_eq, not_lt] using this
  · intro h
    right
    have hnil : db.universities.filter (fun u => t < sim u.normalizedName q) = [] :=
      List.filter_eq_nil_iff.mpr (fun u hu => by
        simpa [decide_eq_true_eq, not_lt] using h u hu)
    rw [hnil]
    rfl

/-- The head of a non-empty similarity search strictly clears the
threshold. -/
theorem findSimilar_head_gt {sim : String → String → ℚ} {db : DB} {q : String} {t : ℚ}
    {top : SimRow} {rest : List SimRow}
    (h : findSimilarWithConfidence sim db q t = top :: rest) : t < top.similarity :=
  (findSimilar_mem (h ▸ List.mem_cons_self top rest)).1

/-- When exactly one appended university clears the threshold the search
returns exactly that university. -/
theorem findSimilar_singleton {sim : String → String → ℚ} {db : DB} {q : String} {t : ℚ}
    {old : List University} {w : University}
    (hu : db.universities = old ++ [w])
    (hold : ∀ u ∈ old, sim u.normalizedName q ≤ t)
    (hw : t < sim w.normalizedName q) :
    findSimilarWithConfidence sim db q t =
      [⟨w.id, w.name, w.normalizedName, sim w.normalizedName q⟩] := by
  unfold findSimilarWithConfidence
  rw [hu, List.filter_append]
  have h1 : old.filter (fun u => t < sim u.normalizedName q) = [] :=
    List.filter_eq_nil_iff.mpr (fun u hu' => by
      simpa [decide_eq_true_eq, not_lt] using hold u hu')
  have h2 : List.filter (fun u => t < sim u.normalizedName q) [w] = [w] := by
    simp [List.filter_cons, decide_eq_true_eq, hw]
  rw [h1, h2]
  rfl

/-- Phase 1 of `addUniversity` accepts whenever the high-confidence search is
non-empty (its head then strictly clears 0.70, so the `>=` re-check holds). -/
theorem addUniversity_phase1_hit {sim : String → String → ℚ} {ai : Option AIClient}
    {tx : TxStep → Bool} {now : Nat} {db : DB} {data : UniversityData}
    {top : SimRow} {rest : List SimRow}
    (h : findSimilarWithConfidence sim db (basicNormalize data.name) simThreshold =
      top :: rest) :
    addUniversity sim ai tx now db data =
      (addAlias db top.id data.name (basicNormalize data.name),
       Except.ok (matchResult top)) := by
  have hgt := findSimilar_head_gt h
  simp only [addUniversity, h, le_of_lt hgt, if_true]

/-- Phase 1 of `addUniversity` falls through to the ambiguity gate when the
high-confidence search is empty. -/
theorem addUniversity_phase1_miss {sim : String → String → ℚ} {ai : Option AIClient}
    {tx : TxStep → Bool} {now : Nat} {db : DB} {data : UniversityData}
    (h : findSimilarWithConfidence sim db (basicNormalize data.name) simThreshold = []) :
    addUniversity sim ai tx now db data =
      (if isAmbiguousInput data.name then
        addUniversityAmbiguous sim ai tx now db data.name (basicNormalize data.name) data
      else
        addUniversityNonAmbiguous sim tx db data.name (basicNormalize data.name) data) := by
  simp only [addUniversity, h]

/-- The ambiguous path on a normalization-cache hit. -/
theorem ambiguous_cache_hit {sim : String → String → ℚ} {ai : Option AIClient}
    {tx : TxStep → Bool} {now : Nat} {db : DB} {inputName dN : String}
    {data : UniversityData} {c : NormalizationCacheEntry}
    (h : getAINormalizationCache now db (hashQuery (jsTrim (jsLower inputName))) = some c) :
    addUniversityAmbiguous sim ai tx now db inputName dN data =
      addUniversityPostAI sim tx db inputName dN
        ⟨c.normalizedName, jsOr c.displayName inputName,
         jsOrOpt c.location data.location, jsOrOpt c.country data.country,
         data.description, true⟩ data := by
  simp only [addUniversityAmbiguous, h]

/-- The ambiguous path on a normalization-cache miss. -/
theorem ambiguous_cache_miss {sim : String → String → ℚ} {ai : Option AIClient}
    {tx : TxStep → Bool} {now : Nat} {db : DB} {inputName dN : String}
    {data : UniversityData}
    (h : getAINormalizationCache now db (hashQuery (jsTrim (jsLower inputName))) = none) :
    addUniversityAmbiguous sim ai tx now db inputName dN data =
      addUniversityPostAI sim tx
        (if (normalizeUniversityInput ai data false).usedAI then
          setAINormalizationCache now db (hashQuery (jsTrim (jsLower inputName)))
            inputName (normalizeUniversityInput ai data false)
        else db)
        inputName dN (normalizeUniversityInput ai data false) data := by
  simp only [addUniversityAmbiguous, h]

/-- The post-AI re-match on a hit: some aliases are added and the top
candidate is returned as existing. -/
theorem postAI_hit {sim : String → String → ℚ} (tx : TxStep → Bool)
    (inputName dN : String) (data : UniversityData) {db : DB} {n : NormResult}
    {top : SimRow} {rest : List SimRow}
    (h : findSimilarWithConfidence sim db n.normalizedName simThresholdLow = top :: rest) :
    ∃ db', addUniversityPostAI sim tx db inputName dN n data =
        (db', Except.ok (matchResult top)) ∧
      db'.universities = db.universities ∧ db'.normCache = db.normCache := by
  simp only [addUniversityPostAI, h]
  split <;> exact ⟨_, rfl, by simp, by simp⟩

/-- The post-AI re-match on a miss delegates to the creation transaction. -/
theorem postAI_miss {sim : String → String → ℚ} {tx : TxStep → Bool} {db : DB}
    {inputName dN : String} {n : NormResult} {data : UniversityData}
    (h : findSimilarWithConfidence sim db n.normalizedName simThresholdLow = []) :
    addUniversityPostAI sim tx db inputName dN n data =
      createUniversityTx tx db n data := by
  simp only [addUniversityPostAI, h]

/-- The unambiguous path on a low-confidence hit. -/
theorem nonAmbiguous_low_hit {sim : String → String → ℚ} {tx : TxStep → Bool} {db : DB}
    {inputName dN : String} {data : UniversityData} {top : SimRow} {rest : List SimRow}
    (h : findSimilarWithConfidence sim db dN simThresholdLow = top :: rest) :
    addUniversityNonAmbiguous sim tx db inputName dN data =
      (addAlias db top.id inputName dN, Except.ok (matchResult top)) := by
  simp only [addUniversityNonAmbiguous, h]

/-- The unambiguous path on a low-confidence miss creates from the
deterministic normalization. -/
theorem nonAmbiguous_low_miss {sim : String → String → ℚ} {tx : TxStep → Bool} {db : DB}
    {inputName dN : String} {data : UniversityData}
    (h : findSimilarWithConfidence sim db dN simThresholdLow = []) :
    addUniversityNonAmbiguous sim tx db inputName dN data =
      createUniversityTx tx db
        ⟨dN, inputName, data.location, data.country, data.description, false⟩ data := by
  simp only [addUniversityNonAmbiguous, h]

/-- `getOrCreateCountry` touches only the countries table and the id
supply. -/
theorem getOrCreateCountry_shape (db : DB) (s : String) :
    (getOrCreateCountry db s).1.universities = db.universities ∧
    (getOrCreateCountry db s).1.normCache = db.normCache ∧
    (getOrCreateCountry db s).1.stats = db.stats := by
  unfold getOrCreateCountry
  split <;> exact ⟨rfl, rfl, rfl⟩

/-- `getOrCreateLocation` touches only the locations table and the id
supply. -/
theorem getOrCreateLocation_shape (db : DB) (s : String) (cid : Nat) :
    (getOrCreateLocation db s cid).1.universities = db.universities ∧
    (getOrCreateLocation db s cid).1.normCache = db.normCache ∧
    (getOrCreateLocation db s cid).1.stats = db.stats := by
  unfold getOrCreateLocation
  split <;> exact ⟨rfl, rfl, rfl⟩

/-- With no failure injection the country step succeeds and preserves the
universities table and the normalization cache. -/
theorem txCountryStep_noFail (db : DB) (n : NormResult) (data : UniversityData) :
    ∃ db1 cid, txCountryStep noFail db n data = .ok (db1, cid) ∧
      db1.universities = db.universities ∧ db1.normCache = db.normCache := by
  unfold txCountryStep
  by_cases hc : jsTruthy (jsOrOpt n.country data.country) = true
  · simp only [hc, if_true, noFail, Bool.false_eq_true, if_false]
    exact ⟨_, _, rfl, (getOrCreateCountry_shape db _).1, (getOrCreateCountry_shape db _).2.1⟩
  · simp only [hc, if_false]
    exact ⟨db, none, rfl, rfl, rfl⟩

/-- With no failure injection the location step succeeds and preserves the
universities table and the normalization cache. -/
theorem txLocationStep_noFail (db1 : DB) (cid : Option Nat) (n : NormResult)
    (data : UniversityData) :
    ∃ db2 lid, txLocationStep noFail db1 cid n data = .ok (db2, lid) ∧
      db2.universities = db1.universities ∧ db2.normCache = db1.normCache := by
  unfold txLocationStep
  by_cases hc : (jsTruthy (jsOrOpt n.location data.location) ∧ cid.isSome)
  · simp only [if_pos hc, noFail, Bool.false_eq_true, if_false]
    exact ⟨_, _, rfl, (getOrCreateLocation_shape db1 _ _).1,
      (getOrCreateLocation_shape db1 _ _).2.1⟩
  · simp only [if_neg hc]
    exact ⟨db1, none, rfl, rfl, rfl⟩

/-- Shape of a successful creation transaction: one university row carrying
the resolved names is appended and the normalization cache is untouched. -/
theorem createTx_noFail (db : DB) (n : NormResult) (data : UniversityData) :
    ∃ db' w, createUniversityTx noFail db n data =
        (db', Except.ok ⟨w.id, n.name, n.normalizedName, false⟩) ∧
      w.normalizedName = n.normalizedName ∧
      db'.universities = db.universities ++ [w] ∧
      db'.normCache = db.normCache := by
  obtain ⟨db1, cid, h1, hu1, hn1⟩ := txCountryStep_noFail db n data
  obtain ⟨db2, lid, h2, hu2, hn2⟩ := txLocationStep_noFail db1 cid n data
  simp only [createUniversityTx, h1, h2]
  unfold txInsertUniversity
  simp only [noFail, Bool.false_eq_true, if_false]
  refine ⟨_, ⟨db2.nextId, n.name, n.normalizedName,
    jsOr (jsOrOpt n.description data.description) "",
    data.nicheDetails, lid, jsOr data.imageUrl defaultImageUrl⟩, rfl, rfl, ?_, ?_⟩
  · split <;> simp [hu2, hu1]
  · split <;> simp [hn2, hn1]

/-- A failed creation transaction rolls back: the returned store is exactly
the store at `BEGIN`. -/
theorem createTx_error {tx : TxStep → Bool} {db : DB} {n : NormResult}
    {data : UniversityData} {db' : DB} {e : String}
    (h : createUniversityTx tx db n data = (db', .error e)) : db' = db := by
  unfold createUniversityTx at h
  split at h
  · exact (Prod.mk.injEq .. ▸ h).1.symm ▸ rfl
  · split at h
    · exact congrArg Prod.fst h |>.symm
    · unfold txInsertUniversity at h
      split at h
      · exact congrArg Prod.fst h |>.symm
      · split at h
        · exact congrArg Prod.fst h |>.symm
        · exact absurd (congrArg Prod.snd h) (by simp)

/-- A successful country step preserves the universities table and the
normalization cache. -/
theorem txCountryStep_ok_shape {tx : TxStep → Bool} {db : DB} {n : NormResult}
    {data : UniversityData} {db1 : DB} {cid : Option Nat}
    (h : txCountryStep tx db n data = .ok (db1, cid)) :
    db1.universities = db.universities ∧ db1.normCache = db.normCache := by
  unfold txCountryStep at h
  split at h
  · split at h
    · cases h
    · cases h
      exact ⟨(getOrCreateCountry_shape db _).1, (getOrCreateCountry_shape db _).2.1⟩
  · cases h
    exact ⟨rfl, rfl⟩

/-- A successful location step preserves the universities table and the
normalization cache. -/
theorem txLocationStep_ok_shape {tx : TxStep → Bool} {db1 : DB} {cid : Option Nat}
    {n : NormResult} {data : UniversityData} {db2 : DB} {lid : Option Nat}
    (h : txLocationStep tx db1 cid n data = .ok (db2, lid)) :
    db2.universities = db1.universities ∧ db2.normCache = db1.normCache := by
  unfold txLocationStep at h
  split at h
  · split at h
    · cases h
    · cases h
      exact ⟨(getOrCreateLocation_shape db1 _ _).1, (getOrCreateLocation_shape db1 _ _).2.1⟩
  · cases h
    exact ⟨rfl, rfl⟩

/-- The creation transaction never touches the normalization cache. -/
theorem createTx_normCache (tx : TxStep → Bool) (db : DB) (n : NormResult)
    (data : UniversityData) :
    ((createUniversityTx tx db n data).1).normCache = db.normCache := by
  unfold createUniversityTx
  split
  · rfl
  next db1 cid h1 =>
    split
    · rfl
    next db2 lid h2 =>
      unfold txInsertUniversity
      split
      · rfl
      · split
        · rfl
        · have e2 := (txLocationStep_ok_shape h2).2
          have e1 := (txCountryStep_ok_shape h1).2
          dsimp only
          split <;> simp [e2, e1]

/-- The post-AI phase never touches the normalization cache. -/
theorem postAI_normCache (sim : String → String → ℚ) (tx : TxStep → Bool) (db : DB)
    (inputName dN : String) (n : NormResult) (data : UniversityData) :
    ((addUniversityPostAI sim tx db inputName dN n data).1).normCache = db.normCache := by
  cases hfs : findSimilarWithConfidence sim db n.normalizedName simThresholdLow with
  | nil => rw [postAI_miss hfs]; exact createTx_normCache tx db n data
  | cons top rest =>
    obtain ⟨db', heq, _, hn⟩ := postAI_hit tx inputName dN data hfs
    rw [heq]
    exact hn

/-- With no failure injection the creation transaction succeeds. -/
theorem createTx_noFail_ok (db : DB) (n : NormResult) (data : UniversityData) :
    ∃ r, (createUniversityTx noFail db n data).2 = .ok r := by
  obtain ⟨db', w, h, -, -, -⟩ := createTx_noFail db n data
  exact ⟨_, by rw [h]⟩

/-- With no failure injection the post-AI phase succeeds. -/
theorem postAI_noFail_ok (sim : String → String → ℚ) (db : DB) (inputName dN : String)
    (n : NormResult) (data : UniversityData) :
    ∃ r, (addUniversityPostAI sim noFail db inputName dN n data).2 = .ok r := by
  cases hfs : findSimilarWithConfidence sim db n.normalizedName simThresholdLow with
  | nil => rw [postAI_miss hfs]; exact createTx_noFail_ok db n data
  | cons top rest =>
    obtain ⟨db', heq, -, -⟩ := postAI_hit noFail inputName dN data hfs
    exact ⟨_, by rw [heq]⟩

/-- With no failure injection the ambiguous phase succeeds. -/
theorem ambiguous_noFail_ok (sim : String → String → ℚ) (ai : Option AIClient)
    (now : Nat) (db : DB) (inputName dN : String) (data : UniversityData) :
    ∃ r, (addUniversityAmbiguous sim ai noFail now db inputName dN data).2 = .ok r := by
  cases hc : getAINormalizationCache now db (hashQuery (jsTrim (jsLower inputName))) with
  | some c => rw [ambiguous_cache_hit hc]; exact postAI_noFail_ok ..
  | none => rw [ambiguous_cache_miss hc]; exact postAI_noFail_ok ..

/-- With no failure injection the unambiguous phase succeeds. -/
theorem nonAmbiguous_noFail_ok (sim : String → String → ℚ) (db : DB)
    (inputName dN : String) (data : UniversityData) :
    ∃ r, (addUniversityNonAmbiguous sim noFail db inputName dN data).2 = .ok r := by
  cases hfs : findSimilarWithConfidence sim db dN simThresholdLow with
  | nil => rw [nonAmbiguous_low_miss hfs]; exact createTx_noFail_ok ..
  | cons top rest => rw [nonAmbiguous_low_hit hfs]; exact ⟨_, rfl⟩

/-- With no failure injection `addUniversity` always resolves without
raising. -/
theorem addUniversity_noFail_ok (sim : String → String → ℚ) (ai : Option AIClient)
    (now : Nat) (db : DB) (data : UniversityData) :
    ∃ r, (addUniversity sim ai noFail now db data).2 = .ok r := by
  cases hfs : findSimilarWithConfidence sim db (basicNormalize data.name) simThreshold with
  | cons top rest => rw [addUniversity_phase1_hit hfs]; exact ⟨_, rfl⟩
  | nil =>
    rw [addUniversity_phase1_miss hfs]
    by_cases hA : isAmbiguousInput data.name = true
    · rw [if_pos hA]; exact ambiguous_noFail_ok ..
    · rw [if_neg hA]; exact nonAmbiguous_noFail_ok ..

/-- `find?` commutes with a filter that keeps every `find?`-matching
element. -/
theorem find?_filter_of_imp {α : Type} (l : List α) (p q : α → Bool)
    (himp : ∀ a, p a = true → q a = true) : (l.filter q).find? p = l.find? p := by
  induction l with
  | nil => rfl
  | cons a t ih =>
    by_cases hq : q a = true
    · rw [List.filter_cons, if_pos hq, List.find?_cons, List.find?_cons]
      cases hp : p a <;> simp [ih]
    · rw [List.filter_cons, if_neg hq, List.find?_cons]
      cases hp : p a
      · simpa using ih
      · exact absurd (himp a hp) hq

/-- Updating the matching entries of a cache list and then searching for the
hash finds the freshly rewritten entry. -/
theorem find?_upsert_aux (now : Nat) (h : String) (n : NormResult)
    (L : List NormalizationCacheEntry)
    (hany : L.any (fun e => e.inputHash = h) = true) :
    ∃ e, (L.map (fun e => if e.inputHash = h then
          { e with normalizedName := n.normalizedName, displayName := some n.name,
                   expiresAt := now + sevenDays } else e)).find?
        (fun e => e.inputHash = h ∧ now < e.expiresAt) = some e ∧
      e.inputHash = h ∧
      e.normalizedName = n.normalizedName ∧ e.displayName = some n.name ∧
      e.expiresAt = now + sevenDays ∧
      e ∈ L.map (fun e => if e.inputHash = h then
          { e with normalizedName := n.normalizedName, displayName := some n.name,
                   expiresAt := now + sevenDays } else e) := by
  induction L with
  | nil => simp at hany
  | cons a t ih =>
    by_cases ha : a.inputHash = h
    · refine ⟨{ a with normalizedName := n.normalizedName, displayName := some n.name,
                       expiresAt := now + sevenDays }, ?_, ha, rfl, rfl, rfl, ?_⟩
      · rw [List.map_cons, List.find?_cons]
        simp only [if_pos ha]
        simp [ha, sevenDays]
      · rw [List.map_cons, if_pos ha]
        exact List.mem_cons_self _ _
    · have hany' : t.any (fun e => e.inputHash = h) = true := by
        rcases List.any_eq_true.mp hany with ⟨x, hx, hxh⟩
        rcases List.mem_cons.mp hx with rfl | hx'
        · exact absurd (by simpa using hxh) ha
        · exact List.any_eq_true.mpr ⟨x, hx', hxh⟩
      obtain ⟨e, he, h0, h1, h2, h3, h4⟩ := ih hany'
      refine ⟨e, ?_, h0, h1, h2, h3, ?_⟩
      · rw [List.map_cons, List.find?_cons]
        simp only [if_neg ha]
        have hp : decide (a.inputHash = h ∧ now < a.expiresAt) = false := by simp [ha]
        rw [hp]
        exact he
      · rw [List.map_cons]
        exact List.mem_cons_of_mem _ h4

/-- Reading the normalization cache right after an upsert returns the entry
just written: resolved name, display name and a fresh 7-day expiry. -/
theorem getAI_set_readback (now : Nat) (db : DB) (h text : String) (n : NormResult) :
    ∃ e, getAINormalizationCache now (setAINormalizationCache now db h text n) h = some e ∧
      e.inputHash = h ∧
      e.normalizedName = n.normalizedName ∧ e.displayName = some n.name ∧
      e.expiresAt = now + sevenDays ∧
      e ∈ (setAINormalizationCache now db h text n).normCache := by
  have hfresh : now < now + sevenDays := by unfold sevenDays; omega
  unfold getAINormalizationCache setAINormalizationCache
  by_cases hany : db.normCache.any (fun e => e.inputHash = h) = true
  · rw [if_pos hany]
    exact find?_upsert_aux now h n db.normCache hany
  · rw [if_neg hany]
    refine ⟨⟨h, text, n.normalizedName, some n.name, n.location, n.country,
      now + sevenDays⟩, ?_, rfl, rfl, rfl, rfl, by simp⟩
    rw [List.find?_append]
    have hnone : db.normCache.find? (fun e => e.inputHash = h ∧ now < e.expiresAt) = none := by
      rw [List.find?_eq_none]
      intro x hx
      have hne : ¬ x.inputHash = h := by
        intro hxh
        exact hany (List.any_eq_true.mpr ⟨x, hx, by simpa using hxh⟩)
      simp [hne]
    rw [hnone]
    simp [hfresh]

/-- The normalization-cache read depends only on the cache table. -/
theorem getAI_congr {db₁ db₂ : DB} (now : Nat) (ih : String)
    (h : db₁.normCache = db₂.normCache) :
    getAINormalizationCache now db₁ ih = getAINormalizationCache now db₂ ih := by
  unfold getAINormalizationCache
  rw [h]

theorem simThreshold_lt_one : simThreshold < 1 := by
  norm_num [simThreshold]

theorem simThresholdLow_lt_one : simThresholdLow < 1 := by
  norm_num [simThresholdLow]

/-! ### Claim theorems -/

section DecideRat

/-
Batteries marks the rational arithmetic operations irreducible, which blocks
kernel evaluation of concrete scores; they are restored to their definitional
behaviour locally for the evaluation theorems below.
-/
set_option allowUnsafeReducibility true
attribute [local semireducible] Rat.mul Rat.add Rat.inv Rat.sub Rat.neg Rat.div


/-- C9. Lazy expiry invariant: every cache read — the entity-scoped answer
cache, the global answer cache, and the normalization cache — treats an entry
whose expiry has passed as absent, regardless of physical deletion: reads are
unchanged by purging expired rows, and when every row for the key is expired
the read misses. -/
theorem cache_lazy_expiry (now : Nat) (db : DB) (uid : Nat) (qh ih : String)
    (region : Option String) :
    getCachedResponse now db uid qh = getCachedResponse now (purgeExpired now db) uid qh ∧
    getCachedGlobalResponse now db qh region =
      getCachedGlobalResponse now (purgeExpired now db) qh region ∧
    getAINormalizationCache now db ih =
      getAINormalizationCache now (purgeExpired now db) ih ∧
    ((∀ e ∈ db.chatCache, e.expiresAt ≤ now) → getCachedResponse now db uid qh = none) ∧
    ((∀ e ∈ db.globalChatCache, e.expiresAt ≤ now) →
      getCachedGlobalResponse now db qh region = none) ∧
    ((∀ e ∈ db.normCache, e.expiresAt ≤ now) →
      getAINormalizationCache now db ih = none) := by
  refine ⟨?_, ?_, ?_, ?_, ?_, ?_⟩
  · unfold getCachedResponse purgeExpired
    rw [find?_filter_of_imp db.chatCache _ _ (fun a hpa => by
      simp only [decide_eq_true_eq] at hpa ⊢
      exact hpa.2.2)]
  · unfold getCachedGlobalResponse purgeExpired
    rw [find?_filter_of_imp db.globalChatCache _ _ (fun a hpa => by
      simp only [decide_eq_true_eq] at hpa ⊢
      exact hpa.2.2)]
  · unfold getAINormalizationCache purgeExpired
    rw [find?_filter_of_imp db.normCache _ _ (fun a hpa => by
      simp only [decide_eq_true_eq] at hpa ⊢
      exact hpa.2)]
  · intro h
    unfold getCachedResponse
    rw [List.find?_eq_none.mpr (fun x hx => by
      simp only [decide_eq_true_eq, not_and, not_lt]
      exact fun _ _ => h x hx)]
    rfl
  · intro h
    unfold getCachedGlobalResponse
    rw [List.find?_eq_none.mpr (fun x hx => by
      simp only [decide_eq_true_eq, not_and, not_lt]
      exact fun _ _ => h x hx)]
    rfl
  · intro h
    unfold getAINormalizationCache
    rw [List.find?_eq_none.mpr (fun x hx => by
      simp only [decide_eq_true_eq, not_and, not_lt]
      exact fun _ => h x hx)]

/-- Witness for C9 at a store whose three caches hold only rows expired at
time 5, read at time 10. -/
theorem cache_lazy_expiry_witness :
    getCachedResponse 10 dbExpired 0 "h" = none ∧
    getCachedGlobalResponse 10 dbExpired "h" none = none ∧
    getAINormalizationCache 10 dbExpired "h" = none := by
  obtain ⟨-, -, -, h4, h5, h6⟩ := cache_lazy_expiry 10 dbExpired 0 "h" "h" none
  exact ⟨h4 (by decide), h5 (by decide), h6 (by decide)⟩

/-- C3 counterexample: the candidate search the resolution engine actually
uses does not consult aliases.  With one entity `"zzz"` carrying the alias
`"q"`, an exact-equality similarity and query `"q"`, the spec-side search
(which does consult aliases) returns the entity with best score 1 while
`findSimilarWithConfidence` returns nothing. -/
theorem similarity_search_ignores_aliases :
    findSimilarWithConfidence simEq dbZeta "q" simThreshold = [] ∧
    findCandidatesSpec simEq dbZeta "q" simThreshold =
      [⟨0, "Zeta", "zzz", 1⟩] := by decide

/-- C3 amended: the candidate search used by resolution searches only
`Entity.normalizedName` (its result is independent of the aliases table),
keeps only candidates scoring strictly above the threshold, orders them by
score descending, and returns at most 5 candidates, each one an entity of the
store scored against the query. -/
theorem findSimilar_characterization (sim : String → String → ℚ) (db : DB)
    (q : String) (t : ℚ) :
    (findSimilarWithConfidence sim db q t).length ≤ 5 ∧
    (∀ r ∈ findSimilarWithConfidence sim db q t, t < r.similarity) ∧
    (∀ r ∈ findSimilarWithConfidence sim db q t, ∃ u ∈ db.universities,
      r = ⟨u.id, u.name, u.normalizedName, sim u.normalizedName q⟩) ∧
    List.Sorted (fun a b : SimRow => b.similarity ≤ a.similarity)
      (findSimilarWithConfidence sim db q t) ∧
    (∀ al, findSimilarWithConfidence sim { db with aliases := al } q t =
      findSimilarWithConfidence sim db q t) := by
  refine ⟨?_, fun r hr => (findSimilar_mem hr).1, fun r hr => (findSimilar_mem hr).2,
    ?_, fun al => rfl⟩
  · unfold findSimilarWithConfidence
    rw [List.length_map]
    exact le_trans (Nat.le_of_eq (List.length_take ..)) (min_le_left ..)
  · unfold findSimilarWithConfidence
    have hs : List.Sorted (simLe sim q)
        (List.insertionSort (simLe sim q)
          (db.universities.filter (fun u => t < sim u.normalizedName q))) :=
      List.sorted_insertionSort _ _
    exact List.Pairwise.map _ (fun a b hab => hab)
      (hs.sublist (List.take_sublist ..) : List.Sorted _ _)

/-- Witness for C3's amended characterization at the alias fixture. -/
theorem findSimilar_characterization_witness :
    (findSimilarWithConfidence simEq dbZeta "q" simThreshold).length ≤ 5 :=
  (findSimilar_characterization simEq dbZeta "q" simThreshold).1

/-- C2 counterexample: a candidate whose similarity against the normalized
input is exactly 0.70 is not accepted at phase 1.  The only entity scores
exactly 0.70 against `basicNormalize "MIT" = "mit"`, yet resolution does not
return it: it proceeds to the external phase (the normalization cache gets
written) and creates a fresh entity with `isExisting = false`. -/
theorem phase1_boundary_counterexample :
    simBoundary "alpha" "mit" = 7 / 10 ∧
    basicNormalize "MIT" = "mit" ∧
    (addUniversity simBoundary (some aiZeta) noFail 0 dbAlpha dataMIT).2 =
      Except.ok ⟨1, "Zeta City University", "zzz", false⟩ ∧
    ((addUniversity simBoundary (some aiZeta) noFail 0 dbAlpha dataMIT).1).normCache ≠
      [] := by decide

/-- C2 amended: phase 1 accepts exactly the candidates scoring strictly above
0.70: when every entity scores ≤ 0.70 against the normalized input (in
particular a best score of exactly 0.70, or 0.69), resolution falls through to
the later phases; when the high-confidence search is non-empty its head
scores strictly above 0.70 and is accepted with `isExisting = true`. -/
theorem phase1_strict_threshold (sim : String → String → ℚ) (ai : Option AIClient)
    (tx : TxStep → Bool) (now : Nat) (db : DB) (data : UniversityData) :
    ((∀ u ∈ db.universities,
        sim u.normalizedName (basicNormalize data.name) ≤ simThreshold) →
      addUniversity sim ai tx now db data =
        (if isAmbiguousInput data.name then
          addUniversityAmbiguous sim ai tx now db data.name (basicNormalize data.name) data
        else
          addUniversityNonAmbiguous sim tx db data.name (basicNormalize data.name) data)) ∧
    (∀ top rest,
      findSimilarWithConfidence sim db (basicNormalize data.name) simThreshold =
        top :: rest →
      simThreshold < top.similarity ∧
      addUniversity sim ai tx now db data =
        (addAlias db top.id data.name (basicNormalize data.name),
         Except.ok (matchResult top))) := by
  constructor
  · intro h
    exact addUniversity_phase1_miss (findSimilar_eq_nil_iff.mpr h)
  · intro top rest h
    exact ⟨findSimilar_head_gt h, addUniversity_phase1_hit h⟩

/-- Witness for C2's amended threshold behaviour at the boundary fixture
(the lone candidate scores exactly 0.70, so resolution falls through). -/
theorem phase1_strict_threshold_witness :
    addUniversity simBoundary (some aiZeta) noFail 0 dbAlpha dataMIT =
      (if isAmbiguousInput dataMIT.name then
        addUniversityAmbiguous simBoundary (some aiZeta) noFail 0 dbAlpha dataMIT.name
          (basicNormalize dataMIT.name) dataMIT
      else
        addUniversityNonAmbiguous simBoundary noFail dbAlpha dataMIT.name
          (basicNormalize dataMIT.name) dataMIT) :=
  (phase1_strict_threshold simBoundary (some aiZeta) noFail 0 dbAlpha dataMIT).1
    (by decide)

/-- C4. For a non-ambiguous input that misses at phase 1, resolution performs
the low-confidence (0.40) pass: any hit leads to alias creation and returning
the existing entity, otherwise it proceeds directly to creation with the
deterministic normalization; the resolution equals the `ai`-free unambiguous
path, so the external reasoning collaborator is never invoked. -/
theorem nonambiguous_no_external (sim : String → String → ℚ) (ai : Option AIClient)
    (tx : TxStep → Bool) (now : Nat) (db : DB) (data : UniversityData)
    (hA : isAmbiguousInput data.name = false)
    (hmiss : findSimilarWithConfidence sim db (basicNormalize data.name) simThreshold = []) :
    (addUniversity sim ai tx now db data =
      addUniversityNonAmbiguous sim tx db data.name (basicNormalize data.name) data) ∧
    (match findSimilarWithConfidence sim db (basicNormalize data.name) simThresholdLow with
     | top :: _ =>
        addUniversity sim ai tx now db data =
          (addAlias db top.id data.name (basicNormalize data.name),
           Except.ok (matchResult top))
     | [] =>
        addUniversity sim ai tx now db data =
          createUniversityTx tx db
            ⟨basicNormalize data.name, data.name, data.location, data.country,
             data.description, false⟩ data) := by
  have h1 : addUniversity sim ai tx now db data =
      addUniversityNonAmbiguous sim tx db data.name (basicNormalize data.name) data := by
    rw [addUniversity_phase1_miss hmiss, if_neg (by simp [hA])]
  refine ⟨h1, ?_⟩
  cases hlow : findSimilarWithConfidence sim db (basicNormalize data.name)
      simThresholdLow with
  | cons top rest => rw [h1, nonAmbiguous_low_hit hlow]
  | nil => rw [h1, nonAmbiguous_low_miss hlow]

/-- Witness for C4 at `"query"` on the empty store (non-ambiguous, both
passes miss, creation with the deterministic normalization). -/
theorem nonambiguous_no_external_witness :
    addUniversity simZero none noFail 0 DB.empty dataQuery =
      addUniversityNonAmbiguous simZero noFail DB.empty dataQuery.name
        (basicNormalize dataQuery.name) dataQuery :=
  (nonambiguous_no_external simZero none noFail 0 DB.empty dataQuery
    (by decide) (by decide)).1

/-- C5. If the external reasoning collaborator is unavailable (`none`) or its
call throws, `normalizeUniversityInput` falls back silently to the
deterministic normalization with `usedAI = false`, and resolution still
completes without raising for both the missing-client and the throwing
client. -/
theorem external_failure_fallback (f : AIClient) (data : UniversityData)
    (err : String) (sim : String → String → ℚ) (now : Nat) (db : DB)
    (hf : f data = Except.error err) :
    normalizeUniversityInput none data false = fallbackNormalization data ∧
    normalizeUniversityInput (some f) data false = fallbackNormalization data ∧
    (fallbackNormalization data).usedAI = false ∧
    (∃ r, (addUniversity sim none noFail now db data).2 = Except.ok r) ∧
    (∃ r, (addUniversity sim (some f) noFail now db data).2 = Except.ok r) := by
  refine ⟨?_, ?_, rfl, addUniversity_noFail_ok .., addUniversity_noFail_ok ..⟩
  · simp only [normalizeUniversityInput]
    split <;> rfl
  · simp only [normalizeUniversityInput, hf]
    split <;> rfl

/-- Witness for C5 with a throwing client at `"MIT"` on the empty store. -/
theorem external_failure_fallback_witness :
    normalizeUniversityInput (some aiErr) dataMIT false =
      fallbackNormalization dataMIT :=
  (external_failure_fallback aiErr dataMIT "model call failed" simZero 0 DB.empty
    (by decide)).2.1

/-- C6 counterexample: after a normalization-cache miss, a deterministic
fallback result is NOT written to the cache.  With the collaborator
unavailable, resolving the ambiguous `"MIT"` on the empty store misses the
cache, resolves via fallback, creates the entity — and the normalization
cache stays empty, against the claim that the result is written whatever its
origin. -/
theorem normcache_fallback_not_written :
    getAINormalizationCache 0 DB.empty (hashQuery "MIT") = none ∧
    isAmbiguousInput "MIT" = true ∧
    (addUniversity simZero none noFail 0 DB.empty dataMIT).2 =
      Except.ok ⟨0, "MIT", "mit", false⟩ ∧
    ((addUniversity simZero none noFail 0 DB.empty dataMIT).1).normCache = [] := by
  decide

/-- C6 amended: in phase 3, after a normalization-cache miss, the resolution
result is written to the cache with a 7-day TTL only when it came from the
external collaborator (`usedAI = true`); the deterministic fallback leaves
the cache untouched. -/
theorem normcache_write_requires_ai (sim : String → String → ℚ)
    (ai : Option AIClient) (tx : TxStep → Bool) (now : Nat) (db : DB)
    (data : UniversityData)
    (hA : isAmbiguousInput data.name = true)
    (hmiss : findSimilarWithConfidence sim db (basicNormalize data.name) simThreshold = [])
    (hcache : getAINormalizationCache now db
      (hashQuery (jsTrim (jsLower data.name))) = none) :
    (((addUniversity sim ai tx now db data).1).normCache =
      if (normalizeUniversityInput ai data false).usedAI then
        (setAINormalizationCache now db (hashQuery (jsTrim (jsLower data.name)))
          data.name (normalizeUniversityInput ai data false)).normCache
      else db.normCache) ∧
    ((normalizeUniversityInput ai data false).usedAI = true →
      ∃ e ∈ ((addUniversity sim ai tx now db data).1).normCache,
        e.inputHash = hashQuery (jsTrim (jsLower data.name)) ∧
        e.normalizedName = (normalizeUniversityInput ai data false).normalizedName ∧
        e.expiresAt = now + sevenDays) := by
  rw [addUniversity_phase1_miss hmiss, if_pos hA, ambiguous_cache_miss hcache]
  have hpost := postAI_normCache sim tx
    (if (normalizeUniversityInput ai data false).usedAI then
      setAINormalizationCache now db (hashQuery (jsTrim (jsLower data.name)))
        data.name (normalizeUniversityInput ai data false)
    else db) data.name (basicNormalize data.name)
    (normalizeUniversityInput ai data false) data
  constructor
  · rw [hpost]
    by_cases hu : (normalizeUniversityInput ai data false).usedAI = true
    · rw [if_pos hu, if_pos hu]
    · rw [if_neg hu, if_neg hu]
  · intro hu
    rw [hpost, if_pos hu]
    obtain ⟨e, -, hh, hn, -, hexp, hmem⟩ := getAI_set_readback now db
      (hashQuery (jsTrim (jsLower data.name))) data.name
      (normalizeUniversityInput ai data false)
    exact ⟨e, hmem, hh, hn, hexp⟩

/-- Witness for C6's amended write rule: with the fixed-answer client the
resolved name is cached for 7 days. -/
theorem normcache_write_requires_ai_witness :
    ∃ e ∈ ((addUniversity simZero (some aiZeta) noFail 0 DB.empty dataMIT).1).normCache,
      e.inputHash = hashQuery (jsTrim (jsLower dataMIT.name)) ∧
      e.normalizedName = (normalizeUniversityInput (some aiZeta) dataMIT false).normalizedName ∧
      e.expiresAt = 0 + sevenDays :=
  (normcache_write_requires_ai simZero (some aiZeta) noFail 0 DB.empty dataMIT
    (by decide) (by decide) (by decide)).2 (by decide)

/-- C7 counterexample: when the query has no token longer than 2 characters
the keyword patterns degenerate to the match-all `'%%'`, so every entity
receives the 1.0 keyword bonus, against the claimed formula which gives 0.
For the single-entity fixture (avgRating 3, totalCount 1) and query `"ab"`
the code returns relevance 2.23 while the claimed score is 1.23. -/
theorem preRank_empty_keyword_counterexample :
    queryKeywords "ab" = [] ∧
    (preRankUniversities dbXavier "ab" none).map (·.relevanceScore) = [223 / 100] ∧
    claimedScore dbXavier none "ab" uniXavier = 123 / 100 := by decide

/-- C7 amended: `preRankUniversities` returns at most 5 rows, all drawn from
entities with `totalCount > 0` and scored by the code's formula, ordered by
score descending with ties broken by average rating descending; when every
entity has `totalCount = 0` the result is empty; and whenever the query has
at least one usable token the code's score coincides with the claimed
formula (they differ only in the degenerate no-token case). -/
theorem preRank_characterization (db : DB) (qt : String) (region : Option String) :
    (preRankUniversities db qt region).length ≤ 5 ∧
    (∀ row ∈ preRankUniversities db qt region, 0 < row.reviewCount ∧
      ∃ u ∈ db.universities,
        row = ⟨u.id, u.name, u.normalizedName, u.description, locationNameOf db u,
          countryNameOf db u, ((statsOf db u).map (·.totalReviews)).getD 0,
          (match statsOf db u with | some s => s.averageRating | none => 0),
          relevanceScore db region (queryKeywords qt) u⟩) ∧
    List.Sorted rankOrder (preRankUniversities db qt region) ∧
    ((∀ u ∈ db.universities, ((statsOf db u).map (·.totalReviews)).getD 0 = 0) →
      preRankUniversities db qt region = []) ∧
    (∀ u, queryKeywords qt ≠ [] →
      relevanceScore db region (queryKeywords qt) u = claimedScore db region qt u) := by
  refine ⟨?_, ?_, ?_, ?_, ?_⟩
  · unfold preRankUniversities
    exact le_trans (Nat.le_of_eq (List.length_take ..)) (min_le_left ..)
  · intro row hrow
    unfold preRankUniversities at hrow
    have h1 := List.mem_of_mem_take hrow
    have h2 := (List.perm_insertionSort rankOrder _).mem_iff.mp h1
    rw [List.mem_map] at h2
    obtain ⟨u, hu, rfl⟩ := h2
    have hu2 := List.mem_filter.mp hu
    refine ⟨by simpa [decide_eq_true_eq] using hu2.2, u, hu2.1, rfl⟩
  · unfold preRankUniversities
    exact ((List.sorted_insertionSort rankOrder _).sublist (List.take_sublist ..) :
      List.Sorted _ _)
  · intro h
    unfold preRankUniversities
    have hnil : db.universities.filter
        (fun u => 0 < (((statsOf db u).map (·.totalReviews)).getD 0)) = [] :=
      List.filter_eq_nil_iff.mpr (fun u hu => by
        simp [decide_eq_true_eq, h u hu])
    rw [hnil]
    rfl
  · intro u hk
    unfold relevanceScore claimedScore claimedKeywordBonus keywordCondition
    cases hq : queryKeywords qt with
    | nil => exact absurd hq hk
    | cons a t => rfl

/-- Witness for C7's amended characterization: with the usable token
`"xavier"` the code's score and the claimed formula coincide on the
fixture. -/
theorem preRank_characterization_witness :
    relevanceScore dbXavier none (queryKeywords "xavier here") uniXavier =
      claimedScore dbXavier none "xavier here" uniXavier :=
  (preRank_characterization dbXavier "xavier here" none).2.2.2.2 uniXavier (by decide)

/-- C8. Deleting the only rating-5 item of an entity that also holds one
rating-1 item and running the triggered recomputation yields the positive
sentinel, but tone `"mixed"`, not the claimed `"critical"`: the sentiment
trigger fires alphabetically before the stats trigger and reads the stale
average 3.0, although the recomputed average 1.0 the spec's tone rule refers
to classifies as `"critical"`. -/
theorem digest_after_delete_stale_tone :
    digestDB3.stats = [⟨0, 1, 1,
      some ⟨"mixed", "No positive reviews yet", "Awful cafeteria", 2⟩⟩] ∧
    sentimentTone (some 1) = "critical" := by decide

/-- C10. Creation-phase atomicity: whenever `addUniversity` propagates an
error, the universities, stats, countries and locations tables are exactly
those of the store at call time — no row created inside the failed creation
transaction persists. -/
theorem creation_rollback (sim : String → String → ℚ) (ai : Option AIClient)
    (tx : TxStep → Bool) (now : Nat) (db : DB) (data : UniversityData)
    (db' : DB) (e : String)
    (h : addUniversity sim ai tx now db data = (db', Except.error e)) :
    db'.universities = db.universities ∧ db'.stats = db.stats ∧
    db'.countries = db.countries ∧ db'.locations = db.locations := by
  cases hfs : findSimilarWithConfidence sim db (basicNormalize data.name) simThreshold with
  | cons top rest =>
    rw [addUniversity_phase1_hit hfs] at h
    cases h
  | nil =>
    rw [addUniversity_phase1_miss hfs] at h
    by_cases hA : isAmbiguousInput data.name = true
    · rw [if_pos hA] at h
      cases hc : getAINormalizationCache now db
          (hashQuery (jsTrim (jsLower data.name))) with
      | some c =>
        rw [ambiguous_cache_hit hc] at h
        cases hfs2 : findSimilarWithConfidence sim db
            (⟨c.normalizedName, jsOr c.displayName data.name,
              jsOrOpt c.location data.location, jsOrOpt c.country data.country,
              data.description, true⟩ : NormResult).normalizedName simThresholdLow with
        | cons top rest =>
          obtain ⟨dbx, heq, -, -⟩ := postAI_hit tx data.name (basicNormalize data.name) data hfs2
          rw [heq] at h
          cases h
        | nil =>
          rw [postAI_miss hfs2] at h
          have := createTx_error h
          subst this
          exact ⟨rfl, rfl, rfl, rfl⟩
      | none =>
        rw [ambiguous_cache_miss hc] at h
        set dbm := (if (normalizeUniversityInput ai data false).usedAI then
          setAINormalizationCache now db (hashQuery (jsTrim (jsLower data.name)))
            data.name (normalizeUniversityInput ai data false)
        else db) with hdbm
        have hdbmu : dbm.universities = db.universities ∧ dbm.stats = db.stats ∧
            dbm.countries = db.countries ∧ dbm.locations = db.locations := by
          rw [hdbm]
          split <;> simp
        cases hfs2 : findSimilarWithConfidence sim dbm
            (normalizeUniversityInput ai data false).normalizedName simThresholdLow with
        | cons top rest =>
          obtain ⟨dbx, heq, -, -⟩ := postAI_hit tx data.name (basicNormalize data.name) data hfs2
          rw [heq] at h
          cases h
        | nil =>
          rw [postAI_miss hfs2] at h
          have := createTx_error h
          subst this
          exact hdbmu
    · rw [if_neg hA] at h
      cases hlow : findSimilarWithConfidence sim db (basicNormalize data.name)
          simThresholdLow with
      | cons top rest =>
        rw [nonAmbiguous_low_hit hlow] at h
        cases h
      | nil =>
        rw [nonAmbiguous_low_miss hlow] at h
        have := createTx_error h
        subst this
        exact ⟨rfl, rfl, rfl, rfl⟩

/-- Witness for C10: `"query"` on the one-entity store with the university
insert failing — the error propagates and the store is unchanged. -/
theorem creation_rollback_witness :
    dbAlpha.universities = dbAlpha.universities ∧ dbAlpha.stats = dbAlpha.stats ∧
    dbAlpha.countries = dbAlpha.countries ∧ dbAlpha.locations = dbAlpha.locations :=
  creation_rollback simZero none failUniversityInsert 0 dbAlpha dataQuery dbAlpha
    "university insert failed" (by decide)

/-- C1. Resolution is idempotent: under a reflexive similarity measure
(`sim s s = 1`) and a fixed environment, a successful `addUniversity(X)`
followed by `addUniversity(X)` again never creates a second entity: the
second call succeeds with `isExisting = true`, refers to the same entity id
the first call created or matched, and leaves the universities table
unchanged. -/
theorem resolution_idempotent (sim : String → String → ℚ) (ai : Option AIClient)
    (now : Nat) (db : DB) (data : UniversityData) (db₁ : DB) (r₁ : AddResult)
    (hsim : ∀ s, sim s s = 1)
    (h₁ : addUniversity sim ai noFail now db data = (db₁, Except.ok r₁)) :
    ∃ db₂ r₂, addUniversity sim ai noFail now db₁ data = (db₂, Except.ok r₂) ∧
      r₂.isExisting = true ∧ r₂.id = r₁.id ∧
      db₂.universities = db₁.universities := by
  cases hfs : findSimilarWithConfidence sim db (basicNormalize data.name) simThreshold with
  | cons top rest =>
    rw [addUniversity_phase1_hit hfs, Prod.mk.injEq] at h₁
    obtain ⟨hdb, hr'⟩ := h₁
    have hr : matchResult top = r₁ := Except.ok.inj hr'
    have hu : db₁.universities = db.universities := by
      rw [← hdb]
      exact addAlias_universities ..
    have hfs₂ : findSimilarWithConfidence sim db₁ (basicNormalize data.name) simThreshold =
        top :: rest :=
      (findSimilar_congr sim (basicNormalize data.name) simThreshold hu).trans hfs
    exact ⟨_, matchResult top, addUniversity_phase1_hit hfs₂, rfl,
      by rw [← hr], addAlias_universities ..⟩
  | nil =>
    rw [addUniversity_phase1_miss hfs] at h₁
    have hold : ∀ u ∈ db.universities,
        sim u.normalizedName (basicNormalize data.name) ≤ simThreshold :=
      findSimilar_eq_nil_iff.mp hfs
    by_cases hA : isAmbiguousInput data.name = true
    · rw [if_pos hA] at h₁
      cases hc : getAINormalizationCache now db
          (hashQuery (jsTrim (jsLower data.name))) with
      | some c =>
        rw [ambiguous_cache_hit hc] at h₁
        cases hp : findSimilarWithConfidence sim db
            ((⟨c.normalizedName, jsOr c.displayName data.name,
              jsOrOpt c.location data.location, jsOrOpt c.country data.country,
              data.description, true⟩ : NormResult)).normalizedName simThresholdLow with
        | cons t2 r2 =>
          obtain ⟨db', heq, hu', hn'⟩ := postAI_hit noFail data.name (basicNormalize data.name) data hp
          rw [heq, Prod.mk.injEq] at h₁
          obtain ⟨hdb, hr'⟩ := h₁
          have hr : matchResult t2 = r₁ := Except.ok.inj hr'
          have hu₁ : db₁.universities = db.universities := hdb ▸ hu'
          have hn₁ : db₁.normCache = db.normCache := hdb ▸ hn'
          have hfs₂ : findSimilarWithConfidence sim db₁ (basicNormalize data.name)
              simThreshold = [] :=
            (findSimilar_congr sim (basicNormalize data.name) simThreshold hu₁).trans hfs
          rw [addUniversity_phase1_miss hfs₂, if_pos hA]
          have hc₂ : getAINormalizationCache now db₁
              (hashQuery (jsTrim (jsLower data.name))) = some c :=
            (getAI_congr now _ hn₁).trans hc
          rw [ambiguous_cache_hit hc₂]
          have hp₂ : findSimilarWithConfidence sim db₁
              ((⟨c.normalizedName, jsOr c.displayName data.name,
                jsOrOpt c.location data.location, jsOrOpt c.country data.country,
                data.description, true⟩ : NormResult)).normalizedName simThresholdLow =
              t2 :: r2 :=
            (findSimilar_congr sim _ simThresholdLow hu₁).trans hp
          obtain ⟨db₂', heq₂, hu₂, -⟩ := postAI_hit noFail data.name (basicNormalize data.name) data hp₂
          exact ⟨db₂', matchResult t2, heq₂, rfl, by rw [← hr], hu₂⟩
        | nil =>
          rw [postAI_miss hp] at h₁
          obtain ⟨db', w, heq, hwnorm, hwu, hwn⟩ := createTx_noFail db
            ⟨c.normalizedName, jsOr c.displayName data.name,
             jsOrOpt c.location data.location, jsOrOpt c.country data.country,
             data.description, true⟩ data
          rw [heq, Prod.mk.injEq] at h₁
          obtain ⟨hdb, hr'⟩ := h₁
          have hr := Except.ok.inj hr'
          have hid : r₁.id = w.id := by rw [← hr]
          have hwu₁ : db₁.universities = db.universities ++ [w] := hdb ▸ hwu
          have hwn₁ : db₁.normCache = db.normCache := hdb ▸ hwn
          by_cases hgt : simThreshold < sim w.normalizedName (basicNormalize data.name)
          · have hfs₂ := findSimilar_singleton hwu₁ hold hgt
            rw [addUniversity_phase1_hit hfs₂]
            exact ⟨_, _, rfl, rfl, hid.symm, addAlias_universities ..⟩
          · have hall : ∀ u ∈ db₁.universities,
                sim u.normalizedName (basicNormalize data.name) ≤ simThreshold := by
              rw [hwu₁]
              intro u hu
              rcases List.mem_append.mp hu with h | h
              · exact hold u h
              · rw [List.mem_singleton] at h
                subst h
                exact not_lt.mp hgt
            have hfs₂ : findSimilarWithConfidence sim db₁ (basicNormalize data.name)
                simThreshold = [] := findSimilar_eq_nil_iff.mpr hall
            rw [addUniversity_phase1_miss hfs₂, if_pos hA]
            have hc₂ : getAINormalizationCache now db₁
                (hashQuery (jsTrim (jsLower data.name))) = some c :=
              (getAI_congr now _ hwn₁).trans hc
            rw [ambiguous_cache_hit hc₂]
            have hold2 : ∀ u ∈ db.universities,
                sim u.normalizedName c.normalizedName ≤ simThresholdLow :=
              findSimilar_eq_nil_iff.mp hp
            have hw2 : simThresholdLow < sim w.normalizedName c.normalizedName := by
              have hwc : w.normalizedName = c.normalizedName := hwnorm
              rw [hwc, hsim]
              exact simThresholdLow_lt_one
            have hp₂ : findSimilarWithConfidence sim db₁
                ((⟨c.normalizedName, jsOr c.displayName data.name,
                  jsOrOpt c.location data.location, jsOrOpt c.country data.country,
                  data.description, true⟩ : NormResult)).normalizedName simThresholdLow =
                [⟨w.id, w.name, w.normalizedName,
                  sim w.normalizedName c.normalizedName⟩] :=
              findSimilar_singleton hwu₁ hold2 hw2
            obtain ⟨db₂', heq₂, hu₂, -⟩ := postAI_hit noFail data.name (basicNormalize data.name) data hp₂
            exact ⟨db₂', _, heq₂, rfl, hid.symm, hu₂⟩
      | none =>
        rw [ambiguous_cache_miss hc] at h₁
        set n := normalizeUniversityInput ai data false with hn
        set dbm := (if n.usedAI then
          setAINormalizationCache now db (hashQuery (jsTrim (jsLower data.name)))
            data.name n
        else db) with hdbm
        have hmu : dbm.universities = db.universities := by
          rw [hdbm]
          split <;> simp
        cases hp : findSimilarWithConfidence sim dbm n.normalizedName simThresholdLow with
        | cons t2 r2 =>
          obtain ⟨db', heq, hu', hn'⟩ := postAI_hit noFail data.name (basicNormalize data.name) data hp
          rw [heq, Prod.mk.injEq] at h₁
          obtain ⟨hdb, hr'⟩ := h₁
          have hr : matchResult t2 = r₁ := Except.ok.inj hr'
          have hu₁ : db₁.universities = dbm.universities := hdb ▸ hu'
          have hn₁ : db₁.normCache = dbm.normCache := hdb ▸ hn'
          have hfs₂ : findSimilarWithConfidence sim db₁ (basicNormalize data.name)
              simThreshold = [] :=
            (findSimilar_congr sim (basicNormalize data.name) simThreshold
              (hu₁.trans hmu)).trans hfs
          rw [addUniversity_phase1_miss hfs₂, if_pos hA]
          by_cases husd : n.usedAI = true
          · obtain ⟨e, hee, heh, hen, hed, hex, hem⟩ := getAI_set_readback now db
              (hashQuery (jsTrim (jsLower data.name))) data.name n
            have hc₂ : getAINormalizationCache now db₁
                (hashQuery (jsTrim (jsLower data.name))) = some e := by
              refine (getAI_congr now _ ?_).trans hee
              rw [hn₁, hdbm, if_pos husd]
            rw [ambiguous_cache_hit hc₂]
            have hp₂ : findSimilarWithConfidence sim db₁
                ((⟨e.normalizedName, jsOr e.displayName data.name,
                  jsOrOpt e.location data.location, jsOrOpt e.country data.country,
                  data.description, true⟩ : NormResult)).normalizedName simThresholdLow =
                t2 :: r2 := by
              show findSimilarWithConfidence sim db₁ e.normalizedName simThresholdLow =
                t2 :: r2
              rw [hen]
              exact (findSimilar_congr sim n.normalizedName simThresholdLow hu₁).trans hp
            obtain ⟨db₂', heq₂, hu₂, -⟩ := postAI_hit noFail data.name (basicNormalize data.name) data hp₂
            exact ⟨db₂', matchResult t2, heq₂, rfl, by rw [← hr], hu₂⟩
          · have hdbm' : dbm = db := by rw [hdbm, if_neg husd]
            have hc₂ : getAINormalizationCache now db₁
                (hashQuery (jsTrim (jsLower data.name))) = none := by
              refine (getAI_congr now _ ?_).trans hc
              rw [hn₁, hdbm']
            rw [ambiguous_cache_miss hc₂]
            rw [← hn, if_neg husd]
            have hp₂ : findSimilarWithConfidence sim db₁ n.normalizedName
                simThresholdLow = t2 :: r2 :=
              (findSimilar_congr sim n.normalizedName simThresholdLow hu₁).trans hp
            obtain ⟨db₂', heq₂, hu₂, -⟩ := postAI_hit noFail data.name (basicNormalize data.name) data hp₂
            exact ⟨db₂', matchResult t2, heq₂, rfl, by rw [← hr], hu₂⟩
        | nil =>
          rw [postAI_miss hp] at h₁
          obtain ⟨db', w, heq, hwnorm, hwu, hwn⟩ := createTx_noFail dbm n data
          rw [heq, Prod.mk.injEq] at h₁
          obtain ⟨hdb, hr'⟩ := h₁
          have hr := Except.ok.inj hr'
          have hid : r₁.id = w.id := by rw [← hr]
          have hwu₁ : db₁.universities = db.universities ++ [w] := by
            rw [← hdb, hwu, hmu]
          have hwn₁ : db₁.normCache = dbm.normCache := hdb ▸ hwn
          by_cases hgt : simThreshold < sim w.normalizedName (basicNormalize data.name)
          · have hfs₂ := findSimilar_singleton hwu₁ hold hgt
            rw [addUniversity_phase1_hit hfs₂]
            exact ⟨_, _, rfl, rfl, hid.symm, addAlias_universities ..⟩
          · have hall : ∀ u ∈ db₁.universities,
                sim u.normalizedName (basicNormalize data.name) ≤ simThreshold := by
              rw [hwu₁]
              intro u hu
              rcases List.mem_append.mp hu with h | h
              · exact hold u h
              · rw [List.mem_singleton] at h
                subst h
                exact not_lt.mp hgt
            have hfs₂ : findSimilarWithConfidence sim db₁ (basicNormalize data.name)
                simThreshold = [] := findSimilar_eq_nil_iff.mpr hall
            rw [addUniversity_phase1_miss hfs₂, if_pos hA]
            have hold2 : ∀ u ∈ db.universities,
                sim u.normalizedName n.normalizedName ≤ simThresholdLow := by
              intro u hu
              exact findSimilar_eq_nil_iff.mp hp u (by rw [hmu]; exact hu)
            have hw2 : simThresholdLow < sim w.normalizedName n.normalizedName := by
              have hwc : w.normalizedName = n.normalizedName := hwnorm
              rw [hwc, hsim]
              exact simThresholdLow_lt_one
            by_cases husd : n.usedAI = true
            · obtain ⟨e, hee, heh, hen, hed, hex, hem⟩ := getAI_set_readback now db
                (hashQuery (jsTrim (jsLower data.name))) data.name n
              have hc₂ : getAINormalizationCache now db₁
                  (hashQuery (jsTrim (jsLower data.name))) = some e := by
                refine (getAI_congr now _ ?_).trans hee
                rw [hwn₁, hdbm, if_pos husd]
              rw [ambiguous_cache_hit hc₂]
              have hp₂ : findSimilarWithConfidence sim db₁
                  ((⟨e.normalizedName, jsOr e.displayName data.name,
                    jsOrOpt e.location data.location, jsOrOpt e.country data.country,
                    data.description, true⟩ : NormResult)).normalizedName
                  simThresholdLow =
                  [⟨w.id, w.name, w.normalizedName,
                    sim w.normalizedName n.normalizedName⟩] := by
                show findSimilarWithConfidence sim db₁ e.normalizedName simThresholdLow = _
                rw [hen]
                exact findSimilar_singleton hwu₁ hold2 hw2
              obtain ⟨db₂', heq₂, hu₂, -⟩ := postAI_hit noFail data.name (basicNormalize data.name) data hp₂
              exact ⟨db₂', _, heq₂, rfl, hid.symm, hu₂⟩
            · have hc₂ : getAINormalizationCache now db₁
                  (hashQuery (jsTrim (jsLower data.name))) = none := by
                refine (getAI_congr now _ ?_).trans hc
                rw [hwn₁, hdbm, if_neg husd]
              rw [ambiguous_cache_miss hc₂]
              rw [← hn, if_neg husd]
              have hp₂ := findSimilar_singleton hwu₁ hold2 hw2
              obtain ⟨db₂', heq₂, hu₂, -⟩ := postAI_hit noFail data.name (basicNormalize data.name) data hp₂
              exact ⟨db₂', _, heq₂, rfl, hid.symm, hu₂⟩
    · rw [if_neg hA] at h₁
      cases hlow : findSimilarWithConfidence sim db (basicNormalize data.name)
          simThresholdLow with
      | cons t2 r2 =>
        rw [nonAmbiguous_low_hit hlow, Prod.mk.injEq] at h₁
        obtain ⟨hdb, hr'⟩ := h₁
        have hr : matchResult t2 = r₁ := Except.ok.inj hr'
        have hu : db₁.universities = db.universities := by
          rw [← hdb]
          exact addAlias_universities ..
        have hfs₂ : findSimilarWithConfidence sim db₁ (basicNormalize data.name)
            simThreshold = [] :=
          (findSimilar_congr sim (basicNormalize data.name) simThreshold hu).trans hfs
        rw [addUniversity_phase1_miss hfs₂, if_neg hA]
        have hlow₂ : findSimilarWithConfidence sim db₁ (basicNormalize data.name)
            simThresholdLow = t2 :: r2 :=
          (findSimilar_congr sim (basicNormalize data.name) simThresholdLow hu).trans hlow
        rw [nonAmbiguous_low_hit hlow₂]
        exact ⟨_, matchResult t2, rfl, rfl, by rw [← hr], addAlias_universities ..⟩
      | nil =>
        rw [nonAmbiguous_low_miss hlow] at h₁
        obtain ⟨db', w, heq, hwnorm, hwu, -⟩ := createTx_noFail db
          ⟨basicNormalize data.name, data.name, data.location, data.country,
           data.description, false⟩ data
        rw [heq, Prod.mk.injEq] at h₁
        obtain ⟨hdb, hr'⟩ := h₁
        have hr := Except.ok.inj hr'
        have hid : r₁.id = w.id := by rw [← hr]
        have hwu₁ : db₁.universities = db.universities ++ [w] := hdb ▸ hwu
        have hgt : simThreshold < sim w.normalizedName (basicNormalize data.name) := by
          have hwdN : w.normalizedName = basicNormalize data.name := hwnorm
          rw [hwdN, hsim]
          exact simThreshold_lt_one
        have hfs₂ := findSimilar_singleton hwu₁ hold hgt
        rw [addUniversity_phase1_hit hfs₂]
        exact ⟨_, _, rfl, rfl, hid.symm, addAlias_universities ..⟩

/-- Witness for C1: resolving `"query"` on the empty store creates entity 0;
the second resolution returns `isExisting = true` for the same id and adds no
university row. -/
theorem resolution_idempotent_witness :
    ∃ db₂ r₂, addUniversity simOne none noFail 0 dbAfterQuery dataQuery =
        (db₂, Except.ok r₂) ∧
      r₂.isExisting = true ∧
      r₂.id = (⟨0, "query", "query", false⟩ : AddResult).id ∧
      db₂.universities = dbAfterQuery.universities :=
  resolution_idempotent simOne none 0 DB.empty dataQuery dbAfterQuery
    ⟨0, "query", "query", false⟩ (fun _ => rfl) (by decide)

end DecideRat

end RateIt
